import Mathlib

/-!
Verification development for the odooVoice module: a shallow embedding of the
NLU / dialogue state-machine core (intent scoring, slot extraction, the voice
command session transitions and the execution gateway) together with theorems
about its behaviour.

Conventions of the embedding:
* Python floats are modelled as rationals (`Rat`); all constants in the source
  (0.9, 0.8, 0.7, 0.25, 0.2, 0.08, 0.3, 0.15) are exact decimal fractions.
* `difflib.SequenceMatcher(None, a, b).ratio()` is an external library call;
  it is modelled as an abstract similarity function `seqSim` carried in the
  environment, constrained to `[0,1]` where a theorem needs that bound.
* The ORM is modelled by an explicit environment (`Env`: catalogues, config
  parameters, registered handlers) and a mutable store (`DB`) threaded through
  the transactional operations; `cr.savepoint()` becomes an explicit
  rollback-on-error combinator.
* Raised `UserError`s become `Except.error` with the user-facing message.
-/

namespace OdooVoice

/-! ### Kernel-evaluable primitives

The embedding avoids core `String` transformations (byte-position recursion)
and the Batteries `Rat` arithmetic (`@[irreducible]`), neither of which the
kernel can evaluate, and instead uses structural implementations with the
same semantics: ASCII case mapping (all catalogue/config data here is ASCII,
where Python's `str.lower` agrees), whitespace trimming/splitting, decimal
rendering, and rational arithmetic through `mkRat`.  Agreement lemmas in the
theorem section connect `qadd`/`qsub`/`qmul` to the standard operations. -/

/-- ASCII lower-casing of one character (Python `str.lower` on ASCII). -/
def char_lower (c : Char) : Char :=
  if 65 ≤ c.toNat ∧ c.toNat ≤ 90 then Char.ofNat (c.toNat + 32) else c

/-- ASCII upper-casing of one character (Python `str.upper` on ASCII). -/
def char_upper (c : Char) : Char :=
  if 97 ≤ c.toNat ∧ c.toNat ≤ 122 then Char.ofNat (c.toNat - 32) else c

/-- Python `str.lower()`. -/
def lower (s : String) : String := String.mk (s.toList.map char_lower)

/-- Python `str.upper()`. -/
def upper (s : String) : String := String.mk (s.toList.map char_upper)

/-- Python `str.strip()`. -/
def trim (s : String) : String :=
  String.mk (((s.toList.dropWhile Char.isWhitespace).reverse.dropWhile
    Char.isWhitespace).reverse)

/-- Whitespace-run splitter (fuelled; each step consumes one character). -/
def words_go : Nat → List Char → List String
  | 0, _ => []
  | _ + 1, [] => []
  | fuel + 1, c :: rest =>
    if c.isWhitespace then words_go fuel rest
    else
      String.mk (c :: rest.takeWhile (fun d => !d.isWhitespace)) ::
        words_go fuel (rest.dropWhile (fun d => !d.isWhitespace))

/-- Non-empty replacement scanner for `str.replace` (fuelled). -/
def replace_go : Nat → List Char → List Char → List Char → List Char
  | 0, _, _, _ => []
  | _ + 1, [], _, _ => []
  | fuel + 1, c :: rest, pat, rep =>
    if pat.isPrefixOf (c :: rest) then
      rep ++ replace_go fuel ((c :: rest).drop pat.length) pat rep
    else c :: replace_go fuel rest pat rep

/-- Python `str.replace(pat, rep)` (for a non-empty pattern). -/
def str_replace (s pat rep : String) : String :=
  if pat.toList.isEmpty then s
  else String.mk (replace_go (s.toList.length + 1) s.toList pat.toList rep.toList)

/-- Python `str.endswith`. -/
def str_ends_with (s suffix : String) : Bool := suffix.toList.isSuffixOf s.toList

/-- `String.intercalate` (Python `sep.join`). -/
def join_sep (sep : String) : List String → String
  | [] => ""
  | [x] => x
  | x :: xs => x ++ sep ++ join_sep sep xs

/-- Decimal digits of a number (fuelled). -/
def nat_digits : Nat → Nat → List Char
  | 0, _ => []
  | fuel + 1, n =>
    if n < 10 then [Char.ofNat (48 + n)]
    else nat_digits fuel (n / 10) ++ [Char.ofNat (48 + n % 10)]

/-- Decimal rendering of a natural number. -/
def nat_str (n : Nat) : String := String.mk (nat_digits (n + 1) n)

/-- Decimal rendering of an integer. -/
def int_str : Int → String
  | Int.ofNat n => nat_str n
  | Int.negSucc n => "-" ++ nat_str (n + 1)

/-- Lexicographic comparison on character codes (the `order='name'` sort). -/
def chars_le : List Char → List Char → Bool
  | [], _ => true
  | _ :: _, [] => false
  | a :: as, b :: bs =>
    if a.toNat < b.toNat then true
    else if a.toNat = b.toNat then chars_le as bs
    else false

/-- Lexicographic string comparison. -/
def str_le (a b : String) : Bool := chars_le a.toList b.toList

/-- Rational addition (kernel-evaluable; equals `a + b`). -/
def qadd (a b : Rat) : Rat := mkRat (a.num * b.den + b.num * a.den) (a.den * b.den)

/-- Rational subtraction (kernel-evaluable; equals `a - b`). -/
def qsub (a b : Rat) : Rat := mkRat (a.num * b.den - b.num * a.den) (a.den * b.den)

/-- Rational multiplication (kernel-evaluable; equals `a * b`). -/
def qmul (a b : Rat) : Rat := mkRat (a.num * b.num) (a.den * b.den)


/-- Substring containment on character lists (structural, kernel-evaluable). -/
def listInfix (needle : List Char) : List Char → Bool
  | [] => needle.isEmpty
  | c :: t => needle.isPrefixOf (c :: t) || listInfix needle t

/-- Python `needle in hay` on strings: substring containment. -/
def substr (needle hay : String) : Bool :=
  needle.toList.isEmpty || listInfix needle.toList hay.toList

/-- Python `str.split()` (split on whitespace, dropping empty pieces). -/
def py_split_ws (s : String) : List String :=
  words_go (s.toList.length + 1) s.toList

inductive Risk
  | low
  | medium
  | high
deriving DecidableEq, Repr

inductive SessState
  | collecting
  | ready
  | executed
  | aborted
deriving DecidableEq, Repr

inductive LogLevel
  | debug
  | info
  | warning
  | error
deriving DecidableEq, Repr

/-- One audit-log record (`voice.command.log`): level and message
(the structured JSON payload is elided; no property here inspects it). -/
structure LogEntry where
  level : LogLevel
  message : String
deriving DecidableEq, Repr

/-- One line of `extract_product_lines` output. -/
structure ProductLine where
  product_id : Nat
  qty : Rat
  uom_id : Nat
  product_name : String
deriving DecidableEq, Repr

/-- A slot value (the JSON values stored in `slots_json`), tagged by shape. -/
inductive SlotVal
  | partner (id : Nat)
  | product (id : Nat)
  | lines (ls : List ProductLine)
  | qty (q : Rat)
  | money (amount : Rat) (currency : String)
  | date (d : String)
  | boolean (b : Bool)
  | text (s : String)
deriving DecidableEq, Repr

/-- Python truthiness of a slot value (`if value:`). -/
def SlotVal.truthy : SlotVal → Bool
  | .partner i => i ≠ 0
  | .product i => i ≠ 0
  | .lines ls => ls ≠ []
  | .qty q => q ≠ 0
  | .money _ _ => true
  | .date d => d ≠ ""
  | .boolean b => b
  | .text s => s ≠ ""

/-- Python truthiness of `Optional` values (`None` is falsy). -/
def optTruthy : Option SlotVal → Bool
  | none => false
  | some v => v.truthy

/-- Context-aware keyword lists for one intent (`_get_intent_keywords`). -/
structure IntentKeywords where
  strong : List String
  weak : List String
  negative : List String
deriving DecidableEq, Repr

/-- `voice.intent.router._get_intent_keywords`: the hard-coded keyword map. -/
def get_intent_keywords (intent_key : String) : IntentKeywords :=
  if intent_key = "sale_create" then
    { strong := ["sell", "sold", "sold to", "customer", "customer bought", "invoice"]
      weak := ["buy", "bought"]
      negative := ["from", "vendor", "supplier", "i buy", "i purchase"] }
  else if intent_key = "purchase_create" then
    { strong := ["purchase", "purchased", "buy from", "vendor", "supplier", "from vendor"]
      weak := ["buy", "bought"]
      negative := ["sell", "customer", "to", "invoice", "sold to"] }
  else if intent_key = "inventory_adjust" then
    { strong := ["inventory", "stock", "warehouse", "adjust", "update"]
      weak := ["increase", "decrease", "add", "remove"]
      negative := ["sell", "buy", "purchase", "vendor", "customer"] }
  else if intent_key = "crm_lead_create" then
    { strong := ["lead", "opportunity", "prospect", "new lead", "new opportunity"]
      weak := ["contact", "company"]
      negative := ["sell", "buy", "inventory", "purchase"] }
  else if intent_key = "invoice_register_payment" then
    { strong := ["payment", "pay", "settle", "receive payment", "payment received"]
      weak := ["paid", "amount"]
      negative := ["sell", "buy", "inventory", "lead"] }
  else
    { strong := [], weak := [], negative := [] }

/-- One keyword-boost pass of `_match_intent`: for each keyword occurring in
the text, add `step` to the accumulator, capped at 1.0. -/
def boost_fold (step : Rat) (text : String) (kws : List String) (acc : Rat) : Rat :=
  kws.foldl (fun a k => if substr k text then min 1 (qadd a step) else a) acc

/-- The context-aware keyword adjustment at the end of `_match_intent`:
negative keywords subtract 0.25 (floored at 0), strong keywords add 0.2 each
(capped at 1.0), weak keywords add 0.08 each (capped at 1.0) only when no
negative keyword fired. -/
def adjust_keywords (ik : IntentKeywords) (text : String) (base : Rat) : Rat :=
  let has_negative := ik.negative.any (fun k => substr k text)
  let s1 := if has_negative then max 0 (qsub base (mkRat 1 4)) else base
  let s2 := boost_fold (mkRat 1 5) text ik.strong s1
  if has_negative then s2 else boost_fold (mkRat 2 25) text ik.weak s2

/-- The per-phrase similarity candidates of `_match_intent` (for a phrase that
is not an exact match): substring containment gives 0.9, token-set overlap is
weighted by 0.8, and the external sequence-similarity by 0.7. -/
def candidate_score (seqSim : String → String → Rat) (text phrase : String) : Rat :=
  let sub : Rat := if substr phrase text || substr text phrase then mkRat 9 10 else 0
  let tw := (py_split_ws text).dedup
  let pw := (py_split_ws phrase).dedup
  let common := tw.filter (fun w => w ∈ pw)
  let ws : Rat :=
    if common ≠ [] then qmul (mkRat common.length (max tw.length pw.length)) (mkRat 4 5)
    else 0
  let fz := qmul (seqSim text phrase) (mkRat 7 10)
  max (max sub ws) fz

/-- `voice.intent.router._match_intent`: score of a template against the
(normalized) text.  An exact match with any training phrase short-circuits the
whole call at 1.0; otherwise the maximal per-phrase candidate is adjusted by
the intent's keyword lists. -/
def match_intent (seqSim : String → String → Rat) (text : String) (tpl_key : String)
    (phrases : List String) : Rat :=
  if phrases = [] then 0
  else if phrases.any (fun p => text == lower p) then 1
  else
    adjust_keywords (get_intent_keywords tpl_key) text
      (phrases.foldl (fun acc p => max acc (candidate_score seqSim text (lower p))) 0)

/-! ## Data model: catalogues, templates, store, environment -/

/-- A `res.partner` record (the fields the extractors consult). -/
structure Partner where
  id : Nat
  name : Option String
  email : Option String
  phone : Option String
  mobile : Option String
  active : Bool

/-- A `product.product` record (the fields the extractors and the semantic
validation consult).  `ptype` is the `type` selection: `consu` / `product` /
`service`. -/
structure Product where
  id : Nat
  name : Option String
  default_code : Option String
  sale_ok : Bool
  purchase_ok : Bool
  ptype : String
  active : Bool
  uom_id : Nat
deriving DecidableEq, Repr

/-- One slot definition from a template's `slot_schema_json`.  Admin-supplied
regex `patterns` for text slots are modelled as abstract matchers (the `re`
library is external): a pattern applied to the text yields the captured group
or the whole match, or nothing. -/
structure SlotDef where
  type : String
  required : Bool
  patterns : List (String → Option String)
  keywords : List String

/-- A `voice.intent.template` record.  `phrases` is the result of
`get_training_phrases_list` (lines of `training_phrases`, stripped, empties
dropped); `schema` is `get_slot_schema()` in declaration order.  The mutable
usage statistics live in the store (`DB`), not here: the rest of the record is
read-only to the NLU core. -/
structure Template where
  key : String
  active : Bool
  phrases : List String
  schema : List (String × SlotDef)
  risk_level_default : Risk
  required_groups : List Nat
  required_modules : List String

/-- A reference to a created/updated business record in a handler result. -/
structure RecordRef where
  model : String
  id : Nat
  name : String
deriving DecidableEq, Repr

/-- A handler `execute` result (the standardized dict of `_prepare_result`). -/
structure ExecResult where
  success : Bool
  message : String
  created_records : List RecordRef
  updated_records : List RecordRef
deriving DecidableEq, Repr

/-- A handler `simulate` plan (structured description; no side effects). -/
structure Plan where
  description : String
  actions : List String
deriving DecidableEq, Repr

/-- The mutable store threaded through transactional operations: per-intent
usage statistics (`usage_count`, `last_used` on `voice.intent.template`) and
the domain records written by handler bodies. -/
structure DB where
  usage_count : String → Nat
  last_used : String → Option Nat
  records : List RecordRef

/-- An intent handler (external collaborator behind the fixed contract):
`simulate` and `execute` act on the store and may fail with a message. -/
structure Handler where
  simulate : List (String × SlotVal) → DB → Except String Plan × DB
  execute : List (String × SlotVal) → DB → Except String ExecResult × DB

/-- The read-only environment: catalogues, configuration parameters, the
handler registry, the external LLM oracle and the external sequence
similarity (`difflib`).  Config fields model the `ir.config_parameter`
values already decoded (`confirm_medium_risk` is the result of the
`== 'True'` comparison, defaults shown in the source). -/
structure Env where
  templates : List Template
  partners : List Partner
  products : List Product
  handlers : String → Option Handler
  confirm_medium_risk : Bool
  fuzzy_match_threshold : Rat
  intent_disambiguation_gap : Rat
  use_llm : Bool
  llm_response : String → Option String
  llm_extract : String → String → String → Option SlotVal
  gen_question : String → String → String → String
  seqSim : String → String → Rat
  company_currency : String
  today_year : Nat
  today_month : Nat
  today_day : Nat
  now : Nat
  user_groups : List Nat
  installed_modules : List String

/-! ## Slot extractors (`voice.slot.filler`)

The Python extractors use `re` patterns; they are embedded as character-level
scanners implementing the same leftmost-match semantics (advance one position
on failure, continue after the match for `findall`). -/

/-- Python `\w` (ASCII): letters, digits, underscore. -/
def isWordChar (c : Char) : Bool := c.isAlphanum || c = '_'

/-- Numeric value of a digit run. -/
def digitsVal (ds : List Char) : Nat :=
  ds.foldl (fun a c => a * 10 + (c.toNat - 48)) 0

/-- `float` value of `<int>.<frac>` digit runs. -/
def numVal (int frac : List Char) : Rat :=
  qadd (mkRat (digitsVal int) 1) (mkRat (digitsVal frac) (10 ^ frac.length))

/-- Scanner for `\b(\d+(?:\.\d+)?)\b` (first match): a digit run must be
preceded by a non-word character; the decimal part is kept only when the
character after it is a word boundary, otherwise the integer part alone
matches (the following `.` is itself a boundary). -/
def quantity_scan : Nat → Bool → List Char → Option Rat
  | 0, _, _ => none
  | _ + 1, _, [] => none
  | fuel + 1, prevWord, c :: rest =>
    if c.isDigit && !prevWord then
      let ds := c :: rest.takeWhile Char.isDigit
      let r1 := rest.dropWhile Char.isDigit
      match r1 with
      | '.' :: r2 =>
        let fs := r2.takeWhile Char.isDigit
        if fs.isEmpty then some (numVal ds [])
        else
          match r2.dropWhile Char.isDigit with
          | [] => some (numVal ds fs)
          | d :: _ => if isWordChar d then some (numVal ds []) else some (numVal ds fs)
      | [] => some (numVal ds [])
      | d :: _ =>
        if isWordChar d then quantity_scan fuel true r1
        else some (numVal ds [])
    else quantity_scan fuel (isWordChar c) rest

/-- `voice.slot.filler.extract_quantity`: first number in the text. -/
def extract_quantity (text : String) : Option Rat :=
  let l := text.toList
  quantity_scan (l.length + 1) false l

/-- Scanner for `\$(\d+(?:\.\d{2})?)`: first `$` followed by digits, with an
optional two-digit decimal part. -/
def money_dollar_scan : List Char → Option Rat
  | [] => none
  | '$' :: rest =>
    let ds := rest.takeWhile Char.isDigit
    if ds.isEmpty then money_dollar_scan rest
    else
      match rest.dropWhile Char.isDigit with
      | '.' :: a :: b :: _ =>
        if a.isDigit && b.isDigit then some (numVal ds [a, b]) else some (numVal ds [])
      | _ => some (numVal ds [])
  | _ :: rest => money_dollar_scan rest

/-- The currency alternation of the second money pattern. -/
def money_codes : List String := ["USD", "EUR", "GBP", "usd", "eur", "gbp"]

/-- Try `(\d+(?:\.\d{2})?)\s*(USD|EUR|GBP|usd|eur|gbp)` at this position. -/
def money_code_try (l : List Char) : Option (Rat × String) :=
  let ds := l.takeWhile Char.isDigit
  if ds.isEmpty then none
  else
    let r1 := l.dropWhile Char.isDigit
    let tryCur : Rat → List Char → Option (Rat × String) := fun amount r =>
      (money_codes.find? (fun code =>
        code.toList.isPrefixOf (r.dropWhile Char.isWhitespace))).map
        (fun code => (amount, upper code))
    match r1 with
    | '.' :: a :: b :: r2 =>
      if a.isDigit && b.isDigit then
        match tryCur (numVal ds [a, b]) r2 with
        | some x => some x
        | none => tryCur (numVal ds []) r1
      else tryCur (numVal ds []) r1
    | _ => tryCur (numVal ds []) r1

/-- Leftmost match of the second money pattern. -/
def money_code_scan : List Char → Option (Rat × String)
  | [] => none
  | c :: rest =>
    match money_code_try (c :: rest) with
    | some x => some x
    | none => money_code_scan rest

/-- Try `(USD|EUR|GBP)\s*(\d+(?:\.\d{2})?)` at this position. -/
def money_pre_try (l : List Char) : Option (Rat × String) :=
  (["USD", "EUR", "GBP"].find? (fun code => code.toList.isPrefixOf l)).bind (fun code =>
    let r := (l.drop 3).dropWhile Char.isWhitespace
    let ds := r.takeWhile Char.isDigit
    if ds.isEmpty then none
    else
      match r.dropWhile Char.isDigit with
      | '.' :: a :: b :: _ =>
        if a.isDigit && b.isDigit then some (numVal ds [a, b], code) else some (numVal ds [], code)
      | _ => some (numVal ds [], code))

/-- Leftmost match of the third money pattern. -/
def money_pre_scan : List Char → Option (Rat × String)
  | [] => none
  | c :: rest =>
    match money_pre_try (c :: rest) with
    | some x => some x
    | none => money_pre_scan rest

/-- `voice.slot.filler.extract_money`: the three money patterns in priority
order, then a bare quantity with the company currency (a zero quantity is
falsy in Python and yields nothing). -/
def extract_money (env : Env) (text : String) : Option (Rat × String) :=
  let l := text.toList
  match money_dollar_scan l with
  | some amt => some (amt, "USD")
  | none =>
    match money_code_scan l with
    | some x => some x
    | none =>
      match money_pre_scan l with
      | some x => some x
      | none =>
        match extract_quantity text with
        | some q => if q ≠ 0 then some (q, env.company_currency) else none
        | none => none

/-- Gregorian leap year (as in Python `datetime`). -/
def isLeap (y : Nat) : Bool := y % 4 = 0 && (y % 100 ≠ 0 || y % 400 = 0)

/-- Days in a month (as in Python `datetime`). -/
def daysInMonth (y m : Nat) : Nat :=
  if m = 2 then (if isLeap y then 29 else 28)
  else if m = 4 ∨ m = 6 ∨ m = 9 ∨ m = 11 then 30
  else 31

/-- `today + timedelta(days=1)` on a (year, month, day) triple. -/
def nextDate (y m d : Nat) : Nat × Nat × Nat :=
  if d < daysInMonth y m then (y, m, d + 1)
  else if m < 12 then (y, m + 1, 1)
  else (y + 1, 1, 1)

/-- `today - timedelta(days=1)` on a (year, month, day) triple. -/
def prevDate (y m d : Nat) : Nat × Nat × Nat :=
  if d > 1 then (y, m, d - 1)
  else if m > 1 then (y, m - 1, daysInMonth y (m - 1))
  else (y - 1, 12, 31)

/-- Zero-padded decimal rendering of width `w`. -/
def padNum (w n : Nat) : String :=
  let s := nat_str n
  String.mk (List.replicate (w - s.toList.length) '0') ++ s

/-- `strftime(DEFAULT_SERVER_DATE_FORMAT)`, i.e. `%Y-%m-%d`. -/
def fmtDate (y m d : Nat) : String :=
  padNum 4 y ++ "-" ++ padNum 2 m ++ "-" ++ padNum 2 d

/-- `datetime(year, month, day)` succeeds (no `ValueError`). -/
def validDate (y m d : Nat) : Bool :=
  1 ≤ y && y ≤ 9999 && 1 ≤ m && m ≤ 12 && 1 ≤ d && d ≤ daysInMonth y m

/-- Try `(\d{4})-(\d{2})-(\d{2})` at this position (returns the matched text,
uncorrected: this branch performs no calendar validation). -/
def iso_try : List Char → Option String
  | a :: b :: c :: d :: '-' :: e :: f :: '-' :: g :: h :: _ =>
    if [a, b, c, d, e, f, g, h].all Char.isDigit then
      some (String.mk [a, b, c, d, '-', e, f, '-', g, h])
    else none
  | _ => none

/-- Leftmost match of the ISO date pattern. -/
def iso_scan : List Char → Option String
  | [] => none
  | c :: rest =>
    match iso_try (c :: rest) with
    | some s => some s
    | none => iso_scan rest

/-- A date separator `[/\-]`. -/
def isDateSep (c : Char) : Bool := c = '/' || c = '-'

/-- Candidate `\d{1,2}` prefixes (greedy: two digits first). -/
def takeDigits12 : List Char → List (List Char × List Char)
  | a :: b :: r =>
    if a.isDigit then
      if b.isDigit then [([a, b], r), ([a], b :: r)] else [([a], b :: r)]
    else []
  | [a] => if a.isDigit then [([a], [])] else []
  | [] => []

/-- Try `(\d{1,2})[/\-](\d{1,2})[/\-](\d{4})` at this position, returning
(day, month, year) as grouped by `extract_date`. -/
def dmy_try (l : List Char) : Option (Nat × Nat × Nat) :=
  (takeDigits12 l).findSome? (fun p1 =>
    match p1.2 with
    | s1 :: r2 =>
      if isDateSep s1 then
        (takeDigits12 r2).findSome? (fun p2 =>
          match p2.2 with
          | s2 :: a :: b :: c :: d :: _ =>
            if isDateSep s2 && [a, b, c, d].all Char.isDigit then
              some (digitsVal p1.1, digitsVal p2.1, digitsVal [a, b, c, d])
            else none
          | _ => none)
      else none
    | _ => none)

/-- Leftmost match of the day/month/year pattern. -/
def dmy_scan : List Char → Option (Nat × Nat × Nat)
  | [] => none
  | c :: rest =>
    match dmy_try (c :: rest) with
    | some x => some x
    | none => dmy_scan rest

/-- `voice.slot.filler.extract_date`: relative keywords first, then the ISO
pattern (returned verbatim, unvalidated), then `D/M/Y` with calendar
validation (`ValueError` becomes `none`). -/
def extract_date (env : Env) (text : String) : Option String :=
  let tl := lower text
  if substr "today" tl then some (fmtDate env.today_year env.today_month env.today_day)
  else if substr "tomorrow" tl then
    let n := nextDate env.today_year env.today_month env.today_day
    some (fmtDate n.1 n.2.1 n.2.2)
  else if substr "yesterday" tl then
    let p := prevDate env.today_year env.today_month env.today_day
    some (fmtDate p.1 p.2.1 p.2.2)
  else
    match iso_scan text.toList with
    | some s => some s
    | none =>
      match dmy_scan text.toList with
      | some (d, m, y) => if validDate y m d then some (fmtDate y m d) else none
      | none => none

/-- `voice.slot.filler.extract_boolean`: fixed positive word list, then fixed
negative word list, then a contextual override for confirmation-style slots. -/
def extract_boolean (text slot_name : String) : Option Bool :=
  let tl := lower text
  let positive := ["yes", "true", "confirm", "do it", "proceed", "invoice now", "bill now"]
  let negative := ["no", "false", "cancel", "abort", "don\x27t", "do not"]
  if positive.any (fun w => substr w tl) then some true
  else if negative.any (fun w => substr w tl) then some false
  else if (slot_name = "confirm" ∨ slot_name = "invoice_now" ∨ slot_name = "bill_now")
      ∧ (substr "invoice" tl ∨ substr "bill" tl) then
    some (substr "now" tl || substr "immediately" tl)
  else none

/-- Index of the first occurrence of `needle` in `hay` (`str.find`, assuming
the needle occurs). -/
def findIdx (needle : List Char) : List Char → Nat
  | [] => 0
  | c :: t => if needle.isPrefixOf (c :: t) then 0 else 1 + findIdx needle t

/-- `voice.slot.filler.extract_text`: slot-definition patterns first, then
keyword anchoring (up to three words following the keyword — possibly the
empty string when nothing follows). -/
def extract_text (text slot_name : String) (sdef : SlotDef) : Option String :=
  match sdef.patterns.findSome? (fun p => p text) with
  | some s => some s
  | none =>
    sdef.keywords.findSome? (fun kw =>
      if substr (lower kw) (lower text) then
        let idx := findIdx (lower kw).toList (lower text).toList
        let after := String.mk (text.toList.drop (idx + kw.toList.length))
        some (join_sep " " ((py_split_ws (trim after)).take 3))
      else none)

/-- Characters allowed in the local part of the email pattern. -/
def emailLocalChar (c : Char) : Bool :=
  c.isAlphanum || c = '.' || c = '_' || c = '%' || c = '+' || c = '-'

/-- Characters allowed in the domain part of the email pattern. -/
def emailDomChar (c : Char) : Bool := c.isAlphanum || c = '.' || c = '-'

/-- Domain run acceptance for the email pattern: must contain a dot with at
least two letters after the final dot (models `[A-Za-z0-9.-]+\.[A-Z|a-z]{2,}`). -/
def email_domain_ok (dom : List Char) : Bool :=
  let afterLast := (dom.reverse.takeWhile (fun c => c ≠ '.')).reverse
  dom.any (fun c => c = '.') && afterLast.length ≥ 2 && afterLast.all Char.isAlpha
    && afterLast.length < dom.length

/-- First email-shaped token in the text (models the email regex of
`extract_partner`). -/
def find_email_go : List Char → List Char → Option String
  | _, [] => none
  | seen, '@' :: rest =>
    let locRev := seen.takeWhile emailLocalChar
    let dom := rest.takeWhile emailDomChar
    if !locRev.isEmpty && email_domain_ok dom then
      some (String.mk (locRev.reverse ++ '@' :: dom))
    else find_email_go ('@' :: seen) rest
  | seen, c :: rest => find_email_go (c :: seen) rest

/-- First email-shaped token in the text. -/
def find_email (text : String) : Option String := find_email_go [] text.toList

/-- Characters of the phone pattern body `[\d\s\-\(\)]`. -/
def phoneMidChar (c : Char) : Bool :=
  c.isDigit || c.isWhitespace || c = '-' || c = '(' || c = ')'

/-- Try `\+?\d[\d\s\-\(\)]{7,}\d` at this position. -/
def phone_try (l : List Char) : Option String :=
  let body := fun (plus : List Char) (l1 : List Char) =>
    match l1 with
    | d :: r =>
      if d.isDigit then
        let run := r.takeWhile phoneMidChar
        let trimmed := (run.reverse.dropWhile (fun c => !c.isDigit)).reverse
        if trimmed.length ≥ 8 then some (String.mk (plus ++ d :: trimmed)) else none
      else none
    | [] => none
  match l with
  | '+' :: rest => body ['+'] rest
  | _ => body [] l

/-- Leftmost match of the phone pattern. -/
def phone_scan : List Char → Option String
  | [] => none
  | c :: rest =>
    match phone_try (c :: rest) with
    | some s => some s
    | none => phone_scan rest

/-- `phones[0].replace(' ', '').replace('-', '').replace('(', '').replace(')', '')`. -/
def clean_phone (s : String) : String :=
  String.mk (s.toList.filter (fun c => c ≠ ' ' && c ≠ '-' && c ≠ '(' && c ≠ ')'))

/-- The name-scanning loop of `extract_partner`: first partner whose
(non-empty) lowercased name occurs in the text returns immediately
(`Sum.inl`); otherwise the best fuzzy candidate at or above the threshold
(strictly greater replaces, so ties keep the earliest) is carried out of the
loop (`Sum.inr`). -/
def partner_loop (seqSim : String → String → Rat) (threshold : Rat) (tl : String) :
    List Partner → Option Nat → Rat → Sum Nat (Option Nat)
  | [], best, _ => Sum.inr best
  | p :: rest, best, bs =>
    match p.name with
    | none => partner_loop seqSim threshold tl rest best bs
    | some nm =>
      if nm = "" then partner_loop seqSim threshold tl rest best bs
      else
        let pn := lower nm
        if substr pn tl then Sum.inl p.id
        else
          let score := seqSim pn tl
          if score > bs ∧ score ≥ threshold then partner_loop seqSim threshold tl rest (some p.id) score
          else partner_loop seqSim threshold tl rest best bs

/-- `voice.slot.filler.extract_partner`: name scan (exact containment wins
outright), then email lookup, then phone lookup, then the fuzzy best.
`search([])` returns active partners only. -/
def extract_partner (env : Env) (text : String) : Option Nat :=
  let actives := env.partners.filter (·.active)
  let tl := lower text
  match partner_loop env.seqSim env.fuzzy_match_threshold tl actives none 0 with
  | Sum.inl pid => some pid
  | Sum.inr best =>
    let byEmail :=
      (find_email text).bind (fun em =>
        (actives.find? (fun p =>
          match p.email with
          | some e => substr (lower em) (lower e)
          | none => false)).map (·.id))
    match byEmail with
    | some pid => some pid
    | none =>
      let byPhone :=
        (phone_scan text.toList).bind (fun ph =>
          let cleaned := clean_phone ph
          (actives.find? (fun p =>
            (match p.phone with | some s => substr cleaned s | none => false)
            || (match p.mobile with | some s => substr cleaned s | none => false))).map (·.id))
      match byPhone with
      | some pid => some pid
      | none => best

/-- The product-scanning loop of `extract_product`: exact name containment or
internal-reference containment wins outright; otherwise the best fuzzy
candidate at or above the threshold.  A product with no name yields the empty
string, which is contained in every text (a faithful Python quirk). -/
def product_loop (seqSim : String → String → Rat) (threshold : Rat) (tl : String) :
    List Product → Option Nat → Rat → Option Nat
  | [], best, _ => best
  | p :: rest, best, bs =>
    let pn := lower (p.name.getD "")
    if substr pn tl then some p.id
    else if (match p.default_code with
             | some code => code ≠ "" && substr (lower code) tl
             | none => false) then some p.id
    else
      let score := seqSim pn tl
      if score > bs ∧ score ≥ threshold then product_loop seqSim threshold tl rest (some p.id) score
      else product_loop seqSim threshold tl rest best bs

/-- `voice.slot.filler.extract_product`: scans active products that are
saleable or purchasable. -/
def extract_product (env : Env) (text : String) : Option Nat :=
  let cands := env.products.filter (fun p => p.active && (p.sale_ok || p.purchase_ok))
  product_loop env.seqSim env.fuzzy_match_threshold (lower text) cands none 0

/-- Try `(\d+(?:\.\d+)?)\s+([a-zA-Z\s]+?)(?:\s|$|,|\.)` at this position:
number, at least one whitespace, then (lazily) a letter run ended by
whitespace, comma, dot or end of string.  Returns quantity, product text and
the rest of the input after the consumed terminator. -/
def pl_try (l : List Char) : Option (Rat × String × List Char) :=
  let ds := l.takeWhile Char.isDigit
  if ds.isEmpty then none
  else
    let r1 := l.dropWhile Char.isDigit
    let num_r2 : Rat × List Char :=
      match r1 with
      | '.' :: rest =>
        let fs := rest.takeWhile Char.isDigit
        if fs.isEmpty then (numVal ds [], r1) else (numVal ds fs, rest.dropWhile Char.isDigit)
      | _ => (numVal ds [], r1)
    let ws := num_r2.2.takeWhile Char.isWhitespace
    if ws.isEmpty then none
    else
      let r3 := num_r2.2.dropWhile Char.isWhitespace
      let letters := r3.takeWhile Char.isAlpha
      if letters.isEmpty then none
      else
        match r3.dropWhile Char.isAlpha with
        | [] => some (num_r2.1, String.mk letters, [])
        | c :: r5 =>
          if c.isWhitespace || c = ',' || c = '.' then some (num_r2.1, String.mk letters, r5)
          else none

/-- `re.findall` for the product-line pattern: leftmost matches, continuing
after each match (fuelled by the input length; each step consumes at least
one character). -/
def pl_findall : Nat → List Char → List (Rat × String)
  | 0, _ => []
  | _ + 1, [] => []
  | fuel + 1, c :: rest =>
    match pl_try (c :: rest) with
    | some (q, pt, r) => (q, pt) :: pl_findall fuel r
    | none => pl_findall fuel rest

/-- `voice.slot.filler.extract_product_lines`: number+product pairs; each
product text is resolved through `extract_product` and unresolved pairs are
dropped.  When no line is found the whole text is tried as a single product
at quantity 1.  When nothing at all is found the result is the empty list
(not an absent-value marker). -/
def extract_product_lines (env : Env) (text : String) : List ProductLine :=
  let l := text.toList
  let line_of := fun (pid : Nat) (q : Rat) =>
    { product_id := pid
      qty := q
      uom_id := ((env.products.find? (fun p => p.id = pid)).map (·.uom_id)).getD 0
      product_name := (((env.products.find? (fun p => p.id = pid)).bind (·.name)).getD "")
      : ProductLine }
  let lines := (pl_findall (l.length + 1) l).filterMap (fun m =>
    (extract_product env (trim m.2)).map (fun pid => line_of pid m.1))
  if lines.isEmpty then
    match extract_product env text with
    | some pid => [line_of pid 1]
    | none => []
  else lines

/-! ## Slot-filling orchestration (`voice.intent.router._extract_slots`) -/

/-- The rule-based dispatch on the slot's declared type (the fallback branch
of `_extract_slots`); an unknown type extracts nothing. -/
def rule_based_value (env : Env) (text slot_name : String) (sdef : SlotDef) : Option SlotVal :=
  if sdef.type = "partner" then (extract_partner env text).map SlotVal.partner
  else if sdef.type = "product" then (extract_product env text).map SlotVal.product
  else if sdef.type = "product_lines" then some (SlotVal.lines (extract_product_lines env text))
  else if sdef.type = "quantity" then (extract_quantity text).map SlotVal.qty
  else if sdef.type = "money" then (extract_money env text).map (fun m => SlotVal.money m.1 m.2)
  else if sdef.type = "date" then (extract_date env text).map SlotVal.date
  else if sdef.type = "boolean" then (extract_boolean text slot_name).map SlotVal.boolean
  else if sdef.type = "text" then (extract_text text slot_name sdef).map SlotVal.text
  else none

/-- The slot loop of `_extract_slots`: LLM extraction first when enabled (a
falsy LLM value falls through to the rule-based path), and a slot is recorded
exactly when the final value is not `None` — note an empty product-line list
is recorded. -/
def extract_slots_go (env : Env) (text tkey : String) :
    List (String × SlotDef) → List (String × SlotVal)
  | [] => []
  | (n, d) :: rest =>
    let llm_v : Option SlotVal := if env.use_llm then env.llm_extract text n tkey else none
    let v : Option SlotVal := if optTruthy llm_v then llm_v else rule_based_value env text n d
    match v with
    | some x => (n, x) :: extract_slots_go env text tkey rest
    | none => extract_slots_go env text tkey rest

/-- `voice.intent.router._extract_slots`. -/
def extract_slots (env : Env) (text : String) (tpl : Template) : List (String × SlotVal) :=
  extract_slots_go env text tpl.key tpl.schema

/-- The missing-required-slots computation at the end of `parse`: required
slots of the schema, in schema order, that are absent from the extracted
slot set. -/
def missing_required (tpl : Template) (slots : List (String × SlotVal)) : List String :=
  (tpl.schema.filter (fun nd => nd.2.required && (slots.lookup nd.1).isNone)).map Prod.fst

/-! ## Intent resolution (`voice.intent.router.parse`) -/

/-- A scored candidate intent. -/
structure IntentMatch where
  template : Template
  intent_key : String
  confidence : Rat

/-- Stable descending insertion (a new element goes before later elements of
equal confidence, matching Python's stable `sort(reverse=True)`). -/
def insert_desc (m : IntentMatch) : List IntentMatch → List IntentMatch
  | [] => [m]
  | x :: xs => if m.confidence ≥ x.confidence then m :: x :: xs else x :: insert_desc m xs

/-- Stable sort by confidence, descending. -/
def sort_desc : List IntentMatch → List IntentMatch
  | [] => []
  | x :: xs => insert_desc x (sort_desc xs)

/-- `voice.intent.router._disambiguate_intent_with_llm`: disabled or failing
oracle yields nothing; otherwise the cleaned single-token answer selects the
first of the two candidates it names. -/
def disambiguate_with_llm (env : Env) (text : String) (top : List IntentMatch) :
    Option IntentMatch :=
  if !env.use_llm then none
  else
    match env.llm_response text with
    | none => none
    | some resp =>
      let cleaned := trim (str_replace (str_replace (lower (trim resp)) "*" "") "\x22" "")
      top.find? (fun m =>
        substr (lower m.intent_key) cleaned || str_ends_with cleaned (lower m.intent_key))

/-- The result dict of `parse`. -/
structure ParseResult where
  intent_key : String
  slots : List (String × SlotVal)
  missing_slots : List String
  risk_level : Risk
  confidence : Rat

/-- The "could not understand" user error of `parse`. -/
def could_not_understand : String :=
  "Could not understand the command. Please try rephrasing or check available commands."

/-- `voice.intent.router.parse`: normalize, score all active templates, keep
positive scores, sort descending (stable), consult the LLM oracle when the
top-two gap is below the configured threshold, reject below the absolute 0.3
floor, then extract slots and compute missing required slots. -/
def router_parse (env : Env) (raw : String) : Except String ParseResult :=
  if trim raw = "" then Except.error "No command text provided"
  else
    let text := lower (trim raw)
    let actives := env.templates.filter (·.active)
    if actives.isEmpty then
      Except.error "No intent templates configured. Please configure intents first."
    else
      let scored := actives.filterMap (fun t =>
        if match_intent env.seqSim text t.key t.phrases > 0 then
          some ⟨t, t.key, match_intent env.seqSim text t.key t.phrases⟩
        else none)
      match sort_desc scored with
      | [] => Except.error could_not_understand
      | m1 :: rest =>
        let best :=
          match rest with
          | [] => m1
          | m2 :: _ =>
            if qsub m1.confidence m2.confidence < env.intent_disambiguation_gap then
              match disambiguate_with_llm env text [m1, m2] with
              | some c => c
              | none => m1
            else m1
        if best.confidence < mkRat 3 10 then Except.error could_not_understand
        else
          let slots := extract_slots env text best.template
          Except.ok
            { intent_key := best.intent_key
              slots := slots
              missing_slots := missing_required best.template slots
              risk_level := best.template.risk_level_default
              confidence := best.confidence }

/-! ## Semantic validation (`voice.command.session._validate_slots`) -/

/-- Python `isinstance(v, int)` on a JSON slot value (identifiers are ints;
a Python `bool` is a subclass of `int`). -/
def as_py_int : SlotVal → Option Nat
  | .partner i => some i
  | .product i => some i
  | .boolean b => some (if b then 1 else 0)
  | _ => none

/-- Python `str()`-style rendering of a slot value, used only as an `ilike`
needle in the validation fallback (non-scalar values get an opaque rendering;
in the source they would be the Python repr, which never matches a product
name either). -/
def SlotVal.py_str : SlotVal → String
  | .text s => s
  | .date d => d
  | .partner i => nat_str i
  | .product i => nat_str i
  | .qty q => if q.den = 1 then int_str q.num ++ ".0" else int_str q.num ++ "/" ++ nat_str q.den
  | .money a c => "money " ++ int_str a.num ++ " " ++ c
  | .lines _ => "product lines"
  | .boolean b => if b then "True" else "False"

/-- One suggested alternative in a clarification. -/
structure Suggestion where
  id : Nat
  name : String
  type : String
deriving DecidableEq, Repr

/-- The dict returned by `_generate_product_clarification`. -/
structure ClarificationCore where
  question : String
  message : String
  suggestions : List Suggestion
deriving DecidableEq, Repr

/-- The clarification dict built by `_validate_slots` (adds the slot name). -/
structure Clarification where
  slot_name : String
  question : String
  message : String
  suggestions : List Suggestion
deriving DecidableEq, Repr

/-- Ascending insertion by product name (the `order='name'` of the stockable
alternatives search). -/
def insert_by_name (p : Product) : List Product → List Product
  | [] => [p]
  | q :: rest =>
    if str_le (p.name.getD "") (q.name.getD "") then p :: q :: rest else q :: insert_by_name p rest

/-- Sort products by name ascending. -/
def sort_by_name : List Product → List Product
  | [] => []
  | p :: rest => insert_by_name p (sort_by_name rest)

/-- `voice.command.session._generate_product_clarification`: question, message
and up to ten stockable alternatives (first five named, remainder counted).
Yields nothing when the slot is absent/falsy or no stockable product exists. -/
def generate_product_clarification (env : Env) (slots : List (String × SlotVal)) :
    Option ClarificationCore :=
  match slots.lookup "product" with
  | none => none
  | some v =>
    if !v.truthy then none
    else
      let stockable := (sort_by_name (env.products.filter
        (fun p => p.ptype = "product" && p.active))).take 10
      if stockable.isEmpty then none
      else
        let pn := v.py_str
        let suggestions := stockable.map
          (fun p => ({ id := p.id, name := p.name.getD "", type := "Stockable" } : Suggestion))
        let suggestion_text :=
          join_sep ", " ((suggestions.take 5).map (fun sg => "\"" ++ sg.name ++ "\"")) ++
          (if suggestions.length > 5 then
            " and " ++ nat_str (suggestions.length - 5) ++ " more..."
          else "")
        some
          { question := "I found that \"" ++ pn ++ "\" is a consumable product and can\x27t track inventory adjustments.\n\nHere are some stockable products you can adjust instead: " ++ suggestion_text ++ "\n\nWhich product did you actually mean to adjust?"
            message := "The product \"" ++ pn ++ "\" is consumable. Suggesting alternatives..."
            suggestions := suggestions }

/-- `voice.command.session._validate_slots`: only the inventory-adjustment
intent's product slot is checked; a resolved, active product of consumable
type triggers a clarification (when stockable alternatives exist).  `none`
means valid. -/
def validate_slots (env : Env) (intent_key : Option String)
    (slots : List (String × SlotVal)) : Option Clarification :=
  match intent_key with
  | none => none
  | some k =>
    if k = "inventory_adjust" then
      match slots.lookup "product" with
      | some v =>
        if v.truthy then
          let product : Option Product :=
            match as_py_int v with
            | some i => env.products.find? (fun p => p.active && p.id = i)
            | none =>
              env.products.find? (fun p =>
                p.active && substr (lower v.py_str) (lower (p.name.getD "")))
          match product with
          | some p =>
            if p.ptype = "consu" then
              (generate_product_clarification env slots).map (fun c =>
                { slot_name := "product", question := c.question, message := c.message,
                  suggestions := c.suggestions })
            else none
          | none => none
        else none
      | none => none
    else none

/-! ## The dialogue session (`voice.command.session`) -/

/-- The mutable fields of a `voice.command.session` record that the
transitions read or write (display-only computed fields are omitted). -/
structure Session where
  state : SessState
  transcript : String
  intent_key : Option String
  slots_json : List (String × SlotVal)
  missing_slots_json : List String
  risk_level : Risk
  dry_run : Bool
  confirmed_by_user : Bool
  error_message : Option String
  execution_plan : Option Plan
  execution_result : Option ExecResult
  result_summary : Option String
  next_question_text : Option String
  logs : List LogEntry

/-- `_log`: append one audit entry to the session's log. -/
def slog (s : Session) (lv : LogLevel) (msg : String) : Session :=
  { s with logs := s.logs ++ [{ level := lv, message := msg }] }

/-- `_compute_confirmation_required`: high risk always, medium risk per the
global `confirm_medium_risk` parameter, low risk never. -/
def confirmation_required (env : Env) (risk : Risk) : Bool :=
  match risk with
  | .high => true
  | .medium => env.confirm_medium_risk
  | .low => false

/-- Python dict assignment `slots[name] = value` on the association list
(replace in place, else append). -/
def assoc_set : List (String × SlotVal) → String → SlotVal → List (String × SlotVal)
  | [], n, v => [(n, v)]
  | (k, w) :: rest, n, v =>
    if k = n then (k, v) :: rest else (k, w) :: assoc_set rest n v

/-- `action_parse`: run the router, record the result, then validate; a
validation failure forces the disputed slot as the sole missing entry, stores
the clarification question, stays `collecting`, logs a warning and raises the
clarification message.  On success the state becomes `ready` exactly when no
required slot is missing.  Router `UserError`s are re-raised unchanged. -/
def action_parse (env : Env) (s : Session) : Except String Unit × Session :=
  match router_parse env s.transcript with
  | Except.error e => (Except.error e, s)
  | Except.ok r =>
    let s1 := { s with
      intent_key := some r.intent_key
      slots_json := r.slots
      missing_slots_json := r.missing_slots
      risk_level := r.risk_level }
    let s2 := slog s1 .info "Parsing completed"
    match validate_slots env s2.intent_key s2.slots_json with
    | some clar =>
      let s3 := { s2 with
        missing_slots_json := [clar.slot_name]
        next_question_text := some clar.question
        state := .collecting }
      (Except.error clar.message, slog s3 .warning "Validation failed during parse")
    | none =>
      if s2.missing_slots_json.isEmpty then (Except.ok (), { s2 with state := .ready })
      else (Except.ok (), s2)

/-- `action_fill_slot`: merge one value, drop the name from the missing list,
and move to `ready` when the missing list becomes empty (no re-validation). -/
def action_fill_slot (s : Session) (slot_name : String) (slot_value : SlotVal) : Session :=
  let slots := assoc_set s.slots_json slot_name slot_value
  let missing := s.missing_slots_json.erase slot_name
  let s1 := { s with slots_json := slots, missing_slots_json := missing }
  let s2 := slog s1 .info ("Slot filled: " ++ slot_name)
  if missing.isEmpty then { s2 with state := .ready } else s2

/-- `action_confirm`: set the user-confirmed flag (no state change). -/
def action_confirm (s : Session) : Session :=
  slog { s with confirmed_by_user := true } .info "User confirmed action"

/-- `action_abort`: set the state to `aborted` (unconditionally). -/
def action_abort (s : Session) : Session :=
  slog { s with state := .aborted } .info "Session aborted by user"

/-- `get_next_question`: a pure read returning the first missing slot and a
generated prompt (template record consulted when the intent is set). -/
def get_next_question (env : Env) (s : Session) : Option (String × String) :=
  match s.missing_slots_json with
  | [] => none
  | next :: _ =>
    match s.intent_key with
    | some k =>
      match env.templates.find? (fun t => t.key = k && t.active) with
      | some _ => some (next, env.gen_question next k s.transcript)
      | none => some (next, "Please provide: " ++ next)
    | none => some (next, "Please provide: " ++ next)

/-! ## Execution gateway (`voice.intent.router.route/simulate/execute`) -/

/-- `cr.savepoint()`: run the body; on an exception restore the store to the
state at entry and re-raise. -/
def savepoint {α : Type} (db : DB) (f : DB → Except String α × DB) : Except String α × DB :=
  match f db with
  | (Except.ok a, db2) => (Except.ok a, db2)
  | (Except.error e, _) => (Except.error e, db)

/-- `voice.intent.template.check_user_access`: group membership, then module
installation. -/
def check_user_access (env : Env) (t : Template) : Bool × String :=
  if t.required_groups ≠ [] ∧ ¬ t.required_groups.any (fun g => g ∈ env.user_groups) then
    (false, "You do not have the required permissions for this action.")
  else
    match t.required_modules.find? (fun m => m ∉ env.installed_modules) with
    | some m => (false, "Required module \"" ++ m ++ "\" is not installed.")
    | none => (true, "")

/-- `voice.intent.router.route`: active template, access check, handler
registry lookup. -/
def route (env : Env) (intent_key : String) : Except String Handler :=
  match env.templates.find? (fun t => t.key = intent_key && t.active) with
  | none => Except.error ("Intent \"" ++ intent_key ++ "\" not found or inactive")
  | some t =>
    let acc := check_user_access env t
    if !acc.1 then Except.error acc.2
    else
      match env.handlers intent_key with
      | none => Except.error ("No handler found for intent \"" ++ intent_key ++ "\"")
      | some h => Except.ok h

/-- `voice.intent.template.increment_usage`: bump the usage counter and stamp
`last_used`. -/
def increment_usage (db : DB) (key : String) (now : Nat) : DB :=
  { db with
    usage_count := fun k => if k = key then db.usage_count key + 1 else db.usage_count k
    last_used := fun k => if k = key then some now else db.last_used k }

/-- `voice.intent.router.simulate`: route then run the handler's dry-run
inside its own savepoint. -/
def router_simulate (env : Env) (intent_key : String) (slots : List (String × SlotVal))
    (db : DB) : Except String Plan × DB :=
  match route env intent_key with
  | Except.error e => (Except.error e, db)
  | Except.ok h => savepoint db (h.simulate slots)

/-- `voice.intent.router.execute`: route, increment the usage statistics (the
template search applies the default active filter), then run the handler body
inside its own savepoint — a handler failure rolls back the handler body
only, leaving this call's usage increment in place. -/
def router_execute (env : Env) (intent_key : String) (slots : List (String × SlotVal))
    (db : DB) : Except String ExecResult × DB :=
  match route env intent_key with
  | Except.error e => (Except.error e, db)
  | Except.ok h =>
    let db1 :=
      if (env.templates.find? (fun t => t.key = intent_key && t.active)).isSome then
        increment_usage db intent_key env.now
      else db
    savepoint db1 (h.execute slots)

/-- Selection key of a session state (as interpolated into error messages). -/
def state_str : SessState → String
  | .collecting => "collecting"
  | .ready => "ready"
  | .executed => "executed"
  | .aborted => "aborted"

/-- The record-link list blocks of `_format_result_summary`. -/
def format_record_links (title : String) (rs : List RecordRef) : String :=
  if rs.isEmpty then ""
  else
    "<h4>" ++ title ++ ":</h4><ul>" ++
    String.join (rs.map (fun r =>
      "<li><a href=\"/web#model=" ++ r.model ++ "&id=" ++ nat_str r.id ++
      "\" target=\"_blank\">" ++ r.model ++ ": " ++ r.name ++ "</a></li>")) ++
    "</ul>"

/-- `voice.command.session._format_result_summary`. -/
def format_result_summary (result : ExecResult) : String :=
  "<div class=\"voice_command_result\">" ++ "<h3>Execution Results</h3>" ++
  format_record_links "Created Records" result.created_records ++
  format_record_links "Updated Records" result.updated_records ++
  (if result.message ≠ "" then "<p><strong>Message:</strong> " ++ result.message ++ "</p>"
   else "") ++
  "</div>"

/-- `action_simulate`: requires a resolved intent; on success stores the plan
and (re-)sets `ready`; on failure the whole call's store changes are rolled
back, an error is logged and the failure re-raised — the session state is
left unchanged. -/
def action_simulate (env : Env) (s : Session) (db : DB) :
    Except String Unit × Session × DB :=
  match s.intent_key with
  | none => (Except.error "No intent identified. Please parse the command first.", s, db)
  | some k =>
    match savepoint db (router_simulate env k s.slots_json) with
    | (Except.ok plan, db2) =>
      let s1 := { s with execution_plan := some plan, state := .ready }
      (Except.ok (), slog s1 .info "Simulation completed", db2)
    | (Except.error e, db2) =>
      (Except.error ("Simulation failed: " ++ e), slog s .error ("Simulation failed: " ++ e), db2)

/-- `action_execute`: requires `ready` state, then satisfied confirmation;
runs the gateway inside a savepoint.  On success: result recorded, state
`executed`, `dry_run` cleared, one info log.  On failure: the savepoint rolls
the store back (including the gateway's usage increment), the error message
is stored, state becomes `aborted`, one error log is appended and the failure
re-raised.  A missing intent key behaves as an unregistered key (Python
`False`), modelled as the empty string, which no template carries. -/
def action_execute (env : Env) (s : Session) (db : DB) :
    Except String Unit × Session × DB :=
  if s.state ≠ SessState.ready then
    (Except.error ("Session is not ready for execution. Current state: " ++ state_str s.state),
     s, db)
  else if confirmation_required env s.risk_level ∧ ¬ s.confirmed_by_user then
    (Except.error "This action requires user confirmation. Please confirm before executing.",
     s, db)
  else
    let key := (s.intent_key).getD ""
    match savepoint db (router_execute env key s.slots_json) with
    | (Except.ok result, db2) =>
      let s1 := { s with
        execution_result := some result
        result_summary := some (format_result_summary result)
        state := .executed
        dry_run := false }
      (Except.ok (), slog s1 .info "Execution completed", db2)
    | (Except.error e, db2) =>
      let s1 := { s with error_message := some e, state := .aborted }
      (Except.error ("Execution failed: " ++ e), slog s1 .error ("Execution failed: " ++ e), db2)

/-! ## Specification-side definitions and the readiness invariant -/

/-- Modelled from the specification's scoring formula (§4.2 / §8): per-phrase
candidate = max of (exact equality → 1.0, substring → 0.9, token overlap ×
0.8, similarity × 0.7); the score is the maximum candidate over all phrases
with the keyword adjustment always applied afterwards (negative −0.25 floored
at 0, strong +0.2 capped, weak +0.08 capped only without a negative hit).
This is the claim's reading, to be compared with `match_intent`. -/
def spec_score (seqSim : String → String → Rat) (text key : String)
    (phrases : List String) : Rat :=
  adjust_keywords (get_intent_keywords key) text
    (phrases.foldl (fun acc p =>
      max acc (max (if text == lower p then (1 : Rat) else 0)
                   (candidate_score seqSim text (lower p)))) 0)

/-- The spec invariant (§3): a session is `ready` iff the missing-slot list is
empty, the intent is resolved, and semantic validation passes (validation is
recomputable from the intent and slots, so the invariant is stated against
`validate_slots`). -/
def ready_invariant (env : Env) (s : Session) : Prop :=
  s.state = SessState.ready ↔
    (s.missing_slots_json = [] ∧ s.intent_key ≠ none ∧
     validate_slots env s.intent_key s.slots_json = none)

/-- All keywords (strong, weak and negative) of an intent, for the
"sharing no keywords" hypothesis. -/
def kw_all (k : String) : List String :=
  (get_intent_keywords k).strong ++ (get_intent_keywords k).weak ++
    (get_intent_keywords k).negative

/-! ## Concrete fixtures (witnesses and counterexamples) -/

/-- A similarity function that is 0 everywhere: one admissible instance of the
external `difflib` ratio (bounded in `[0,1]`). -/
def sim0 : String → String → Rat := fun _ _ => 0

/-- A baseline environment: empty catalogues, default configuration values
(`confirm_medium_risk` true, threshold 0.8, gap 0.15, LLM disabled). -/
def env0 : Env :=
  { templates := [], partners := [], products := [], handlers := fun _ => none
    confirm_medium_risk := true, fuzzy_match_threshold := mkRat 4 5
    intent_disambiguation_gap := mkRat 3 20
    use_llm := false, llm_response := fun _ => none, llm_extract := fun _ _ _ => none
    gen_question := fun n _ _ => "Please provide: " ++ n
    seqSim := sim0, company_currency := "USD"
    today_year := 2026, today_month := 10, today_day := 12, now := 77
    user_groups := [], installed_modules := [] }

/-- An empty store. -/
def db0 : DB := { usage_count := fun _ => 0, last_used := fun _ => none, records := [] }

/-- A fresh session on the given transcript (the record defaults of
`voice.command.session`). -/
def s0 (t : String) : Session :=
  { state := .collecting, transcript := t, intent_key := none, slots_json := []
    missing_slots_json := [], risk_level := .low, dry_run := true
    confirmed_by_user := false, error_message := none, execution_plan := none
    execution_result := none, result_summary := none, next_question_text := none
    logs := [] }

/-- A consumable product named "chocolate". -/
def choco : Product :=
  { id := 1, name := some "chocolate", default_code := none, sale_ok := true
    purchase_ok := false, ptype := "consu", active := true, uom_id := 9 }

/-- A stockable product named "sugar". -/
def sugar : Product :=
  { id := 2, name := some "sugar", default_code := none, sale_ok := true
    purchase_ok := false, ptype := "product", active := true, uom_id := 9 }

/-- A required slot of the given type with no patterns or keywords. -/
def mkSlot (ty : String) : SlotDef :=
  { type := ty, required := true, patterns := [], keywords := [] }

/-- An inventory-adjustment template with required product and quantity. -/
def tpl_inv : Template :=
  { key := "inventory_adjust", active := true, phrases := ["adjust stock"]
    schema := [("product", mkSlot "product"), ("quantity", mkSlot "quantity")]
    risk_level_default := .low, required_groups := [], required_modules := [] }

/-- Environment for the semantic-validation scenario. -/
def env5 : Env := { env0 with templates := [tpl_inv], products := [choco, sugar] }

/-- The scenario session: adjust a consumable product's stock. -/
def sC5 : Session := s0 "increase chocolate stock by 200"

/-- The router result on the scenario: similarity base 0.16, strong keyword
"stock" +0.2, weak keyword "increase" +0.08, so confidence 0.44 = 11/25. -/
def r5 : ParseResult :=
  { intent_key := "inventory_adjust"
    slots := [("product", SlotVal.product 1), ("quantity", SlotVal.qty 200)]
    missing_slots := [], risk_level := .low, confidence := mkRat 11 25 }

/-- The clarification generated on the scenario. -/
def clar5 : Clarification :=
  { slot_name := "product"
    question := "I found that \"1\" is a consumable product and can\x27t track inventory adjustments.\n\nHere are some stockable products you can adjust instead: \"sugar\"\n\nWhich product did you actually mean to adjust?"
    message := "The product \"1\" is consumable. Suggesting alternatives..."
    suggestions := [{ id := 2, name := "sugar", type := "Stockable" }] }

/-- Two templates sharing one training phrase (admin data permits this). -/
def tplA : Template :=
  { key := "a_intent", active := true, phrases := ["sell stuff"], schema := []
    risk_level_default := .low, required_groups := [], required_modules := [] }

/-- See `tplA`; this one comes first in search order. -/
def tplB : Template :=
  { key := "b_intent", active := true, phrases := ["sell stuff"], schema := []
    risk_level_default := .low, required_groups := [], required_modules := [] }

/-- Environment with the duplicated training phrase. -/
def env6 : Env := { env0 with templates := [tplB, tplA] }

/-- A template whose only required slot has type `product_lines`. -/
def tpl_pl : Template :=
  { key := "sale_create", active := true, phrases := ["sell products"]
    schema := [("product_lines", mkSlot "product_lines")]
    risk_level_default := .low, required_groups := [], required_modules := [] }

/-- Environment with an empty product catalogue. -/
def env9 : Env := { env0 with templates := [tpl_pl] }

/-- A slotless template for execution scenarios. -/
def tplW : Template :=
  { key := "w_intent", active := true, phrases := ["hello world"], schema := []
    risk_level_default := .low, required_groups := [], required_modules := [] }

/-- A handler whose body always raises. -/
def fail_handler : Handler :=
  { simulate := fun _ db => (Except.error "boom", db)
    execute := fun _ db => (Except.error "boom", db) }

/-- A handler whose body succeeds and writes one record. -/
def ok_handler : Handler :=
  { simulate := fun _ db => (Except.ok { description := "plan", actions := [] }, db)
    execute := fun _ db =>
      (Except.ok { success := true, message := "done", created_records := [], updated_records := [] },
       { db with records := db.records ++ [{ model := "sale.order", id := 5, name := "S5" }] }) }

/-- Environment with the slotless template bound to the failing handler. -/
def envW : Env :=
  { env0 with templates := [tplW]
              handlers := fun k => if k = "w_intent" then some fail_handler else none }

/-- Environment with the slotless template bound to the succeeding handler. -/
def envOk : Env :=
  { env0 with templates := [tplW]
              handlers := fun k => if k = "w_intent" then some ok_handler else none }

/-- A ready, confirmed session on the slotless intent. -/
def sReady : Session :=
  { s0 "hello world" with state := .ready, confirmed_by_user := true
                          intent_key := some "w_intent" }

/-- A ready, unconfirmed, high-risk session. -/
def sReadyHigh : Session := { s0 "t" with state := .ready, risk_level := .high }

/-- An executed (terminal) session. -/
def sExec : Session := { s0 "t" with state := .executed }

/-- An aborted (terminal) session. -/
def sAbort : Session := { s0 "t" with state := .aborted }

/-! ## Claim C1 -/

/-- C1: `execute` while the derived confirmation-required flag is true and
the user-confirmed flag is false fails with the confirmation-required error
and returns the session completely unchanged (state stays `ready`, not
`aborted`); `execute` in any non-`ready` state fails with the not-ready
error, also unchanged; and the derived flag is: high risk always true, medium
risk iff the global medium-risk toggle, low risk always false. -/
theorem C1_execute_confirmation_gate (env : Env) (s : Session) (db : DB) :
    (s.state = SessState.ready → confirmation_required env s.risk_level = true →
      s.confirmed_by_user = false →
      action_execute env s db =
        (Except.error "This action requires user confirmation. Please confirm before executing.",
         s, db)) ∧
    (s.state ≠ SessState.ready →
      action_execute env s db =
        (Except.error ("Session is not ready for execution. Current state: " ++ state_str s.state),
         s, db)) ∧
    confirmation_required env Risk.high = true ∧
    confirmation_required env Risk.medium = env.confirm_medium_risk ∧
    confirmation_required env Risk.low = false := by
  refine ⟨?_, ?_, rfl, rfl, rfl⟩
  · intro h1 h2 h3
    simp [action_execute, h1, h2, h3]
  · intro h1
    simp [action_execute, h1]

/-- Witness for C1 at a ready, unconfirmed, high-risk session and at a fresh
(`collecting`) session. -/
theorem C1_witness :
    action_execute env0 sReadyHigh db0 =
      (Except.error "This action requires user confirmation. Please confirm before executing.",
       sReadyHigh, db0) ∧
    action_execute env0 (s0 "t") db0 =
      (Except.error "Session is not ready for execution. Current state: collecting",
       s0 "t", db0) :=
  ⟨(C1_execute_confirmation_gate env0 sReadyHigh db0).1 rfl rfl rfl,
   (C1_execute_confirmation_gate env0 (s0 "t") db0).2.1 (by decide)⟩

/-! ## Claim C2 -/

/-- C2: on a confirmed, ready session, if the routed handler's `execute`
raises, the session ends `aborted`, `error_message` equals the raised
message, exactly one log entry (at error level) is appended, and the store is
rolled back to its entry state. -/
theorem C2_handler_failure_aborts (env : Env) (s : Session) (db : DB) (k : String)
    (hdl : Handler) (msg : String) (db2 : DB)
    (hstate : s.state = SessState.ready)
    (hconf : s.confirmed_by_user = true)
    (hkey : s.intent_key = some k)
    (hroute : route env k = Except.ok hdl)
    (hexec : hdl.execute s.slots_json (increment_usage db k env.now) = (Except.error msg, db2)) :
    (action_execute env s db).1 = Except.error ("Execution failed: " ++ msg) ∧
    (action_execute env s db).2.1.state = SessState.aborted ∧
    (action_execute env s db).2.1.error_message = some msg ∧
    (action_execute env s db).2.1.logs
      = s.logs ++ [{ level := LogLevel.error, message := "Execution failed: " ++ msg }] ∧
    (action_execute env s db).2.1.logs.countP (fun e => e.level == LogLevel.error)
      = s.logs.countP (fun e => e.level == LogLevel.error) + 1 ∧
    (action_execute env s db).2.2 = db := by
  have hfind : ∃ t, env.templates.find? (fun t => t.key = k && t.active) = some t := by
    unfold route at hroute
    cases hf : env.templates.find? (fun t => t.key = k && t.active) with
    | none => rw [hf] at hroute; exact absurd hroute (by simp)
    | some t => exact ⟨t, rfl⟩
  obtain ⟨t, hf⟩ := hfind
  have hre : router_execute env k s.slots_json db =
      (Except.error msg, increment_usage db k env.now) := by
    unfold router_execute
    rw [hroute, hf]
    simp [savepoint, hexec]
  have hx : action_execute env s db =
      (Except.error ("Execution failed: " ++ msg),
       slog { s with error_message := some msg, state := .aborted } .error
         ("Execution failed: " ++ msg), db) := by
    unfold action_execute
    rw [if_neg (by rw [hstate]; exact fun h => h rfl)]
    rw [if_neg (by rw [hconf]; exact fun h => h.2 rfl)]
    rw [hkey]
    simp only [Option.getD_some]
    rw [show savepoint db (router_execute env k s.slots_json) =
          (Except.error msg, db) from by simp [savepoint, hre]]
  rw [hx]
  refine ⟨rfl, rfl, rfl, rfl, ?_, rfl⟩
  simp [slog, List.countP_append, List.countP_cons]

/-- Witness for C2: the concrete failing handler on the slotless intent. -/
theorem C2_witness :
    (action_execute envW sReady db0).1 = Except.error "Execution failed: boom" ∧
    (action_execute envW sReady db0).2.1.state = SessState.aborted ∧
    (action_execute envW sReady db0).2.1.error_message = some "boom" ∧
    (action_execute envW sReady db0).2.1.logs
      = sReady.logs ++ [{ level := LogLevel.error, message := "Execution failed: boom" }] ∧
    (action_execute envW sReady db0).2.1.logs.countP (fun e => e.level == LogLevel.error)
      = sReady.logs.countP (fun e => e.level == LogLevel.error) + 1 ∧
    (action_execute envW sReady db0).2.2 = db0 :=
  C2_handler_failure_aborts envW sReady db0 "w_intent" fail_handler "boom"
    (increment_usage db0 "w_intent" envW.now) rfl rfl rfl rfl rfl

/-! ## Claim C4 -/

/-- C4 (counterexample): `abort` on an `executed` session moves it to
`aborted` — the terminal state is not preserved by the abort transition. -/
theorem C4_counterexample :
    sExec.state = SessState.executed ∧
    (action_abort sExec).state = SessState.aborted ∧
    (action_abort sExec).state ≠ sExec.state :=
  ⟨rfl, rfl, by decide⟩

/-- C4 (amended): terminality is only partially enforced — `execute` refuses
any non-`ready` state (leaving the session unchanged) and `confirm` and
`get_next_question` never change state, but `abort` moves even an `executed`
session to `aborted`, and `fill_slot` moves an `aborted` session with an
empty missing list back to `ready` (parse and simulate are likewise
unguarded). -/
theorem C4_terminal_states (env : Env) (s : Session) (db : DB) (n : String) (v : SlotVal) :
    (s.state = SessState.executed ∨ s.state = SessState.aborted →
      action_execute env s db =
        (Except.error ("Session is not ready for execution. Current state: " ++ state_str s.state),
         s, db)) ∧
    (action_confirm s).state = s.state ∧
    (action_abort s).state = SessState.aborted ∧
    (s.state = SessState.aborted → s.missing_slots_json = [] →
      (action_fill_slot s n v).state = SessState.ready) := by
  refine ⟨?_, rfl, rfl, ?_⟩
  · intro h
    have hne : s.state ≠ SessState.ready := by
      rcases h with h | h <;> rw [h] <;> decide
    simp [action_execute, hne]
  · intro _ h2
    simp [action_fill_slot, h2]

/-- Witness for C4 at terminal sessions. -/
theorem C4_witness :
    action_execute env0 sExec db0 =
      (Except.error "Session is not ready for execution. Current state: executed",
       sExec, db0) ∧
    (action_confirm sExec).state = sExec.state ∧
    (action_abort sExec).state = SessState.aborted ∧
    (action_fill_slot sAbort "x" (SlotVal.qty 1)).state = SessState.ready :=
  ⟨(C4_terminal_states env0 sExec db0 "x" (SlotVal.qty 1)).1 (Or.inl rfl),
   (C4_terminal_states env0 sExec db0 "x" (SlotVal.qty 1)).2.1,
   (C4_terminal_states env0 sExec db0 "x" (SlotVal.qty 1)).2.2.1,
   (C4_terminal_states env0 sAbort db0 "x" (SlotVal.qty 1)).2.2.2 rfl rfl⟩

/-! ## Claim C10 -/

/-- C10 (counterexample): on a ready, confirmed session whose handler body
fails, the usage counter is NOT incremented — `action_execute`'s own
savepoint rolls the gateway's statistics update back together with everything
else. -/
theorem C10_counterexample :
    (action_execute envW sReady db0).1 = Except.error "Execution failed: boom" ∧
    (action_execute envW sReady db0).2.2.usage_count "w_intent" = 0 ∧
    db0.usage_count "w_intent" = 0 ∧
    (action_execute envW sReady db0).2.2.last_used "w_intent" = none := by
  refine ⟨?_, ?_, rfl, ?_⟩ <;> rfl

/-- C10 (amended): the statistics update is independent of the handler body's
own savepoint — at the gateway level, `router.execute` increments the usage
count and stamps `last_used` before the handler's savepoint, so a failing
handler body leaves the increment in place while its own writes are rolled
back, and a succeeding body sees the increment.  But the session-level
`action_execute` wraps the whole gateway call in a further savepoint, so when
the handler fails the increment is rolled back too: session-level statistics
survive only on success. -/
theorem C10_usage_stats (env : Env) (k : String) (hdl : Handler)
    (slots : List (String × SlotVal)) (s : Session) (db : DB)
    (hroute : route env k = Except.ok hdl) :
    ((increment_usage db k env.now).usage_count k = db.usage_count k + 1 ∧
     (increment_usage db k env.now).last_used k = some env.now ∧
     (increment_usage db k env.now).records = db.records) ∧
    (∀ msg db2, hdl.execute slots (increment_usage db k env.now) = (Except.error msg, db2) →
      router_execute env k slots db = (Except.error msg, increment_usage db k env.now)) ∧
    (∀ r db2, hdl.execute slots (increment_usage db k env.now) = (Except.ok r, db2) →
      router_execute env k slots db = (Except.ok r, db2)) ∧
    (s.state = SessState.ready → s.confirmed_by_user = true → s.intent_key = some k →
      ∀ msg db2, hdl.execute s.slots_json (increment_usage db k env.now) = (Except.error msg, db2) →
        (action_execute env s db).2.2 = db) := by
  have hfind : ∃ t, env.templates.find? (fun t => t.key = k && t.active) = some t := by
    unfold route at hroute
    cases hf : env.templates.find? (fun t => t.key = k && t.active) with
    | none => rw [hf] at hroute; exact absurd hroute (by simp)
    | some t => exact ⟨t, rfl⟩
  obtain ⟨t, hf⟩ := hfind
  refine ⟨⟨by simp [increment_usage], by simp [increment_usage], rfl⟩, ?_, ?_, ?_⟩
  · intro msg db2 hexec
    unfold router_execute
    rw [hroute, hf]
    simp [savepoint, hexec]
  · intro r db2 hexec
    unfold router_execute
    rw [hroute, hf]
    simp [savepoint, hexec]
  · intro hstate hconf hkey msg db2 hexec
    have hre : router_execute env k s.slots_json db =
        (Except.error msg, increment_usage db k env.now) := by
      unfold router_execute
      rw [hroute, hf]
      simp [savepoint, hexec]
    unfold action_execute
    rw [if_neg (by rw [hstate]; exact fun h => h rfl)]
    rw [if_neg (by rw [hconf]; exact fun h => h.2 rfl)]
    rw [hkey]
    simp only [Option.getD_some]
    rw [show savepoint db (router_execute env k s.slots_json) =
          (Except.error msg, db) from by simp [savepoint, hre]]

/-- Witness for C10: failing and succeeding handler instances. -/
theorem C10_witness :
    router_execute envW "w_intent" [] db0 =
      (Except.error "boom", increment_usage db0 "w_intent" envW.now) ∧
    (increment_usage db0 "w_intent" envW.now).usage_count "w_intent" = 1 ∧
    (action_execute envW sReady db0).2.2 = db0 :=
  ⟨(C10_usage_stats envW "w_intent" fail_handler [] sReady db0 rfl).2.1 "boom" _ rfl,
   by rfl,
   (C10_usage_stats envW "w_intent" fail_handler [] sReady db0 rfl).2.2.2 rfl rfl rfl "boom" _ rfl⟩

/-! ## Claim C3 -/

/-- C3 (counterexample): the readiness invariant is not preserved by
`fill_slot` — a fresh session (invariant holds) is moved to `ready` by one
`fill_slot` call even though no intent is resolved (the missing list is empty
and `fill_slot` checks nothing else). -/
theorem C3_counterexample :
    ready_invariant env0 (s0 "increase stock") ∧
    (action_fill_slot (s0 "increase stock") "quantity" (SlotVal.qty 5)).state
      = SessState.ready ∧
    (action_fill_slot (s0 "increase stock") "quantity" (SlotVal.qty 5)).intent_key = none ∧
    ¬ ready_invariant env0 (action_fill_slot (s0 "increase stock") "quantity" (SlotVal.qty 5)) := by
  refine ⟨?_, rfl, rfl, ?_⟩
  · unfold ready_invariant
    decide
  · unfold ready_invariant
    decide

/-- C3 (amended): the biconditional is established by `parse` — after a
successful `action_parse` from any non-`ready` state, the session is `ready`
iff its missing-slot list is empty, and the intent is then resolved with
semantic validation passing — but it is not preserved by every transition:
`fill_slot` moves any session whose missing list empties to `ready` without
checking intent resolution or re-running validation (see the counterexample),
and `simulate` sets `ready` unconditionally on success. -/
theorem C3_parse_establishes_invariant (env : Env) (s : Session)
    (hns : s.state ≠ SessState.ready)
    (hok : (action_parse env s).1 = Except.ok ()) :
    ready_invariant env (action_parse env s).2 := by
  unfold action_parse at hok ⊢
  cases hp : router_parse env s.transcript with
  | error e => rw [hp] at hok; exact absurd hok (by simp)
  | ok r =>
    rw [hp] at hok
    dsimp only [slog] at hok ⊢
    cases hv : validate_slots env (some r.intent_key) r.slots with
    | some clar =>
      try rw [hv] at hok
      exact absurd hok (by simp)
    | none =>
      try rw [hv] at hok
      try rw [hv]
      dsimp only
      by_cases hm : r.missing_slots = []
      · have hme : r.missing_slots.isEmpty = true := by rw [hm]; rfl
        simp only [hme, if_true]
        unfold ready_invariant
        simp [hm, hv]
      · have hme : r.missing_slots.isEmpty = false := by
          cases hml : r.missing_slots with
          | nil => exact absurd hml hm
          | cons a l => rfl
        simp only [hme, Bool.false_eq_true, if_false]
        unfold ready_invariant
        simp [hns, hm, hv]

/-- Witness for C3: a successful exact-match parse of a slotless intent
restores the invariant. -/
theorem C3_witness :
    ready_invariant envW (action_parse envW (s0 "hello world")).2 :=
  C3_parse_establishes_invariant envW (s0 "hello world") (by decide) (by rfl)

/-! ## Claim C5 -/

/-- C5 (amended): when semantic validation rejects a slot value during parse,
the session stays `collecting`, the missing list is forced to exactly the
disputed slot, the clarification question is stored and the clarification
message raised — but the disputed slot is NOT removed from the filled slot
set: the whole extracted slot set, the disputed value included, is retained
unchanged. -/
theorem C5_semantic_validation (env : Env) (s : Session) (r : ParseResult)
    (clar : Clarification)
    (hp : router_parse env s.transcript = Except.ok r)
    (hv : validate_slots env (some r.intent_key) r.slots = some clar) :
    (action_parse env s).1 = Except.error clar.message ∧
    (action_parse env s).2.state = SessState.collecting ∧
    (action_parse env s).2.missing_slots_json = [clar.slot_name] ∧
    (action_parse env s).2.slots_json = r.slots ∧
    (action_parse env s).2.intent_key = some r.intent_key ∧
    (action_parse env s).2.next_question_text = some clar.question ∧
    (action_parse env s).2.logs = s.logs ++
      [{ level := LogLevel.info, message := "Parsing completed" },
       { level := LogLevel.warning, message := "Validation failed during parse" }] := by
  unfold action_parse
  rw [hp]
  dsimp only [slog]
  rw [hv]
  refine ⟨rfl, rfl, rfl, rfl, rfl, rfl, ?_⟩
  simp

/-- Witness for C5 on the concrete scenario: parse "increase chocolate stock
by 200" against a consumable "chocolate". -/
theorem C5_witness :
    (action_parse env5 sC5).1 = Except.error clar5.message ∧
    (action_parse env5 sC5).2.state = SessState.collecting ∧
    (action_parse env5 sC5).2.missing_slots_json = [clar5.slot_name] ∧
    (action_parse env5 sC5).2.slots_json = r5.slots ∧
    (action_parse env5 sC5).2.intent_key = some r5.intent_key ∧
    (action_parse env5 sC5).2.next_question_text = some clar5.question ∧
    (action_parse env5 sC5).2.logs = sC5.logs ++
      [{ level := LogLevel.info, message := "Parsing completed" },
       { level := LogLevel.warning, message := "Validation failed during parse" }] :=
  C5_semantic_validation env5 sC5 r5 clar5 (by rfl) (by rfl)

/-- C5 (counterexample): in the concrete scenario the disputed `product` slot
is still present in the filled slot set after the validation failure — it is
not removed as the claim states. -/
theorem C5_counterexample :
    (action_parse env5 sC5).2.missing_slots_json = ["product"] ∧
    (action_parse env5 sC5).2.state = SessState.collecting ∧
    (action_parse env5 sC5).2.slots_json.lookup "product" = some (SlotVal.product 1) := by
  refine ⟨?_, ?_, ?_⟩ <;> rfl

/-! ## Agreement of the kernel-evaluable arithmetic with the standard one -/

theorem qadd_eq (a b : Rat) : qadd a b = a + b := by
  rw [qadd, Rat.mkRat_eq_div]
  conv_rhs => rw [← Rat.num_div_den a, ← Rat.num_div_den b]
  push_cast
  rw [div_add_div _ _ (by positivity) (by positivity)]
  ring_nf

theorem qsub_eq (a b : Rat) : qsub a b = a - b := by
  rw [qsub, Rat.mkRat_eq_div]
  conv_rhs => rw [← Rat.num_div_den a, ← Rat.num_div_den b]
  push_cast
  rw [div_sub_div _ _ (by positivity) (by positivity)]
  ring_nf

theorem qmul_eq (a b : Rat) : qmul a b = a * b := by
  rw [qmul, Rat.mkRat_eq_div]
  conv_rhs => rw [← Rat.num_div_den a, ← Rat.num_div_den b]
  push_cast
  rw [div_mul_div_comm]

theorem mkRat_nat_eq (c m : Nat) : mkRat c m = (c : Rat) / (m : Rat) := by
  rw [Rat.mkRat_eq_div]
  push_cast
  rfl

theorem mkRat_nat_nonneg (c m : Nat) : 0 ≤ mkRat c m := by
  rw [mkRat_nat_eq]
  positivity

theorem mkRat_nat_le_one (c m : Nat) (h : c ≤ m) : mkRat c m ≤ 1 := by
  rw [mkRat_nat_eq]
  rcases Nat.eq_zero_or_pos m with hm | hm
  · subst hm
    have hc : c = 0 := Nat.le_zero.mp h
    subst hc
    norm_num
  · rw [div_le_one (by exact_mod_cast hm)]
    exact_mod_cast h

/-! ## Bounds and monotonicity of the keyword adjustment -/

theorem boost_fold_le_one (step : Rat) (text : String) (kws : List String) (a : Rat)
    (h : a ≤ 1) : boost_fold step text kws a ≤ 1 := by
  unfold boost_fold
  induction kws generalizing a with
  | nil => exact h
  | cons k ks ih =>
    simp only [List.foldl_cons]
    by_cases hk : substr k text
    · simp only [hk, if_true]
      exact ih _ (min_le_left _ _)
    · simp only [hk, if_false]
      exact ih _ h

theorem boost_fold_nonneg (step : Rat) (text : String) (kws : List String) (a : Rat)
    (hs : 0 ≤ step) (h : 0 ≤ a) : 0 ≤ boost_fold step text kws a := by
  unfold boost_fold
  induction kws generalizing a with
  | nil => exact h
  | cons k ks ih =>
    simp only [List.foldl_cons]
    by_cases hk : substr k text
    · simp only [hk, if_true]
      exact ih _ (le_min (by norm_num) (by rw [qadd_eq]; exact add_nonneg h hs))
    · simp only [hk, if_false]
      exact ih _ h

theorem boost_fold_mono (step : Rat) (text : String) (kws : List String) (a b : Rat)
    (h : a ≤ b) : boost_fold step text kws a ≤ boost_fold step text kws b := by
  unfold boost_fold
  induction kws generalizing a b with
  | nil => exact h
  | cons k ks ih =>
    simp only [List.foldl_cons]
    by_cases hk : substr k text
    · simp only [hk, if_true]
      refine ih _ _ (min_le_min le_rfl ?_)
      rw [qadd_eq, qadd_eq]
      exact add_le_add_right h step
    · simp only [hk, if_false]
      exact ih _ _ h

theorem boost_fold_ge_init (step : Rat) (text : String) (kws : List String) (a : Rat)
    (hs : 0 ≤ step) (h1 : a ≤ 1) : a ≤ boost_fold step text kws a := by
  unfold boost_fold
  induction kws generalizing a with
  | nil => exact le_rfl
  | cons k ks ih =>
    simp only [List.foldl_cons]
    by_cases hk : substr k text
    · simp only [hk, if_true]
      refine le_trans (le_min h1 ?_) (ih _ (min_le_left _ _))
      rw [qadd_eq]
      exact le_add_of_nonneg_right hs
    · simp only [hk, if_false]
      exact ih _ h1

theorem adjust_keywords_le_one (ik : IntentKeywords) (text : String) (base : Rat)
    (h : base ≤ 1) : adjust_keywords ik text base ≤ 1 := by
  unfold adjust_keywords
  by_cases hn : ik.negative.any (fun k => substr k text)
  · simp only [hn, if_true]
    exact boost_fold_le_one _ _ _ _ (max_le (by norm_num)
      (by rw [qsub_eq]; linarith [show (0:Rat) ≤ mkRat 1 4 from mkRat_nat_nonneg 1 4]))
  · simp only [hn, if_false]
    exact boost_fold_le_one _ _ _ _ (boost_fold_le_one _ _ _ _ h)

theorem adjust_keywords_nonneg (ik : IntentKeywords) (text : String) (base : Rat)
    (h : 0 ≤ base) : 0 ≤ adjust_keywords ik text base := by
  unfold adjust_keywords
  by_cases hn : ik.negative.any (fun k => substr k text)
  · simp only [hn, if_true]
    exact boost_fold_nonneg _ _ _ _ (mkRat_nat_nonneg 1 5) (le_max_left _ _)
  · simp only [hn, if_false]
    exact boost_fold_nonneg _ _ _ _ (mkRat_nat_nonneg 2 25)
      (boost_fold_nonneg _ _ _ _ (mkRat_nat_nonneg 1 5) h)

/-! ## Bounds of the phrase candidates and the whole score -/

theorem candidate_score_nonneg (seqSim : String → String → Rat) (text phrase : String)
    (h0 : 0 ≤ seqSim text phrase) : 0 ≤ candidate_score seqSim text phrase := by
  unfold candidate_score
  refine le_trans ?_ (le_max_right _ _)
  rw [qmul_eq]
  have : (0:Rat) ≤ mkRat 7 10 := mkRat_nat_nonneg 7 10
  exact mul_nonneg h0 this

theorem candidate_score_le_one (seqSim : String → String → Rat) (text phrase : String)
    (h0 : 0 ≤ seqSim text phrase) (h1 : seqSim text phrase ≤ 1) :
    candidate_score seqSim text phrase ≤ 1 := by
  unfold candidate_score
  refine max_le (max_le ?_ ?_) ?_
  · split
    · exact mkRat_nat_le_one 9 10 (by norm_num)
    · norm_num
  · split
    · rename_i hcom
      rw [qmul_eq]
      have hle : mkRat
          ((((py_split_ws text).dedup.filter (fun w => w ∈ (py_split_ws phrase).dedup)).length : Int))
          (max (py_split_ws text).dedup.length (py_split_ws phrase).dedup.length) ≤ 1 := by
        apply mkRat_nat_le_one
        exact le_trans (List.length_filter_le _ _) (le_max_left _ _)
      have h45 : (0:Rat) ≤ mkRat 4 5 := mkRat_nat_nonneg 4 5
      have h45' : mkRat 4 5 ≤ 1 := mkRat_nat_le_one 4 5 (by norm_num)
      calc _ ≤ 1 * mkRat 4 5 := by
              refine mul_le_mul_of_nonneg_right ?_ h45
              exact hle
           _ ≤ 1 := by rw [one_mul]; exact h45'
    · norm_num
  · rw [qmul_eq]
    have h710 : (0:Rat) ≤ mkRat 7 10 := mkRat_nat_nonneg 7 10
    have h710' : mkRat 7 10 ≤ 1 := mkRat_nat_le_one 7 10 (by norm_num)
    calc seqSim text phrase * mkRat 7 10 ≤ 1 * mkRat 7 10 :=
          mul_le_mul_of_nonneg_right h1 h710
      _ ≤ 1 := by rw [one_mul]; exact h710'

theorem foldl_max_le {α : Type} (l : List α) (g : α → Rat) (c a : Rat)
    (ha : a ≤ c) (hg : ∀ x ∈ l, g x ≤ c) :
    l.foldl (fun acc x => max acc (g x)) a ≤ c := by
  induction l generalizing a with
  | nil => exact ha
  | cons x xs ih =>
    simp only [List.foldl_cons]
    exact ih _ (max_le ha (hg x (List.mem_cons_self x xs)))
      (fun y hy => hg y (List.mem_cons_of_mem x hy))

theorem foldl_max_nonneg {α : Type} (l : List α) (g : α → Rat) (a : Rat)
    (ha : 0 ≤ a) : 0 ≤ l.foldl (fun acc x => max acc (g x)) a := by
  induction l generalizing a with
  | nil => exact ha
  | cons x xs ih =>
    simp only [List.foldl_cons]
    exact ih _ (le_trans ha (le_max_left _ _))

theorem match_intent_nonneg (seqSim : String → String → Rat) (text key : String)
    (phrases : List String)
    (hb : ∀ a b, 0 ≤ seqSim a b ∧ seqSim a b ≤ 1) :
    0 ≤ match_intent seqSim text key phrases := by
  unfold match_intent
  split
  · norm_num
  · split
    · norm_num
    · exact adjust_keywords_nonneg _ _ _ (foldl_max_nonneg _ _ _ le_rfl)

theorem match_intent_le_one (seqSim : String → String → Rat) (text key : String)
    (phrases : List String)
    (hb : ∀ a b, 0 ≤ seqSim a b ∧ seqSim a b ≤ 1) :
    match_intent seqSim text key phrases ≤ 1 := by
  unfold match_intent
  split
  · norm_num
  · split
    · norm_num
    · refine adjust_keywords_le_one _ _ _ ?_
      refine foldl_max_le _ _ _ _ (by norm_num) ?_
      intro p _
      exact candidate_score_le_one seqSim text (lower p) (hb _ _).1 (hb _ _).2

/-! ## Claim C7 -/

/-- C7 (counterexample): when the text exactly equals a training phrase, the
exact-match branch short-circuits at 1.0 and no keyword adjustment is
applied, so the score does not equal the claim's always-adjusted formula:
with phrase "send invoice from office" (which contains the negative keyword
"from" and the strong keyword "invoice" of `sale_create`), the code scores
1.0 but the formula gives 0.95. -/
theorem C7_counterexample :
    match_intent sim0 "send invoice from office" "sale_create" ["send invoice from office"] = 1 ∧
    spec_score sim0 "send invoice from office" "sale_create" ["send invoice from office"]
      = mkRat 19 20 ∧
    (1 : Rat) ≠ mkRat 19 20 := by
  refine ⟨by rfl, by rfl, by decide⟩

/-- C7 (amended): whenever no training phrase exactly matches the normalized
text, the intent score equals the claim's formula (maximum per-phrase
candidate, then negative −0.25 floored at 0, strong +0.2 capped at 1, weak
+0.08 capped at 1 only without a negative hit); the exact-match
short-circuit is the only exception.  The final score always lies in
`[0, 1]` (given the similarity oracle is bounded by `[0, 1]`). -/
theorem C7_score_formula (seqSim : String → String → Rat) (text key : String)
    (phrases : List String)
    (hb : ∀ a b, 0 ≤ seqSim a b ∧ seqSim a b ≤ 1) :
    (phrases ≠ [] → (∀ p ∈ phrases, text ≠ lower p) →
      match_intent seqSim text key phrases = spec_score seqSim text key phrases) ∧
    0 ≤ match_intent seqSim text key phrases ∧
    match_intent seqSim text key phrases ≤ 1 := by
  refine ⟨?_, match_intent_nonneg seqSim text key phrases hb,
          match_intent_le_one seqSim text key phrases hb⟩
  intro hne hnex
  have hany : (phrases.any (fun p => text == lower p)) = false := by
    rw [List.any_eq_false]
    intro p hp
    simpa using hnex p hp
  unfold match_intent spec_score
  rw [if_neg hne, hany]
  simp only [Bool.false_eq_true, if_false]
  congr 1
  apply List.foldl_ext
  intro a p hp
  have hx : (text == lower p) = false := by
    simpa using hnex p hp
  rw [hx]
  simp only [Bool.false_eq_true, if_false]
  rw [max_eq_right (candidate_score_nonneg seqSim text (lower p) (hb _ _).1)]

/-- Witness for C7: concrete bounded similarity, no exact match. -/
theorem C7_witness :
    match_intent sim0 "hello" "sale_create" ["buy from"]
      = spec_score sim0 "hello" "sale_create" ["buy from"] ∧
    0 ≤ match_intent sim0 "hello" "sale_create" ["buy from"] ∧
    match_intent sim0 "hello" "sale_create" ["buy from"] ≤ 1 :=
  ⟨(C7_score_formula sim0 "hello" "sale_create" ["buy from"]
      (fun _ _ => ⟨le_rfl, by norm_num [sim0]⟩)).1 (by decide) (by decide),
   (C7_score_formula sim0 "hello" "sale_create" ["buy from"]
      (fun _ _ => ⟨le_rfl, by norm_num [sim0]⟩)).2.1,
   (C7_score_formula sim0 "hello" "sale_create" ["buy from"]
      (fun _ _ => ⟨le_rfl, by norm_num [sim0]⟩)).2.2⟩

/-! ## Claim C8 -/

/-- C8 (counterexample): for the pair (`sale_create`, `x_intent`) sharing no
keywords, appending the negative keyword "from" of `sale_create` to the text
"buy" INCREASES `sale_create`'s score: "buy from" exactly matches the
(admin-configured) training phrase, short-circuiting at 1.0, while "buy"
scores 0.98 — so adding a negative keyword can raise the score. -/
theorem C8_counterexample :
    (∀ w ∈ kw_all "sale_create", w ∉ kw_all "x_intent") ∧
    "from" ∈ (get_intent_keywords "sale_create").negative ∧
    ("buy" ++ " " ++ "from") = "buy from" ∧
    match_intent sim0 "buy" "sale_create" ["buy from"] = mkRat 49 50 ∧
    match_intent sim0 "buy from" "sale_create" ["buy from"] = 1 ∧
    mkRat 49 50 < 1 := by
  refine ⟨by decide, by decide, by rfl, by rfl, by rfl, by decide⟩

/-- C8 (amended): the monotonicity holds at the keyword-adjustment layer with
the phrase-similarity base fixed — the adjusted score (negative penalty
applied, weak boosts suppressed when a negative keyword fires) never exceeds
what the same base and keyword hits would yield without the penalty — but
appending the keyword changes the text itself and can raise the base (up to
an exact phrase match), so the end-to-end claim fails. -/
theorem C8_negative_penalty_monotone (ik : IntentKeywords) (text : String) (base : Rat)
    (h0 : 0 ≤ base) (h1 : base ≤ 1) :
    adjust_keywords ik text base ≤
      boost_fold (mkRat 2 25) text ik.weak (boost_fold (mkRat 1 5) text ik.strong base) := by
  unfold adjust_keywords
  by_cases hn : ik.negative.any (fun k => substr k text)
  · simp only [hn, if_true]
    have hstep : max 0 (qsub base (mkRat 1 4)) ≤ base := by
      refine max_le h0 ?_
      rw [qsub_eq]
      linarith [show (0:Rat) ≤ mkRat 1 4 from mkRat_nat_nonneg 1 4]
    refine le_trans (boost_fold_mono _ _ _ _ _ hstep) ?_
    exact boost_fold_ge_init _ _ _ _ (mkRat_nat_nonneg 2 25)
      (boost_fold_le_one _ _ _ _ h1)
  · simp only [hn, if_false]
    exact le_rfl

/-- Witness for C8 at the `sale_create` keyword lists. -/
theorem C8_witness :
    adjust_keywords (get_intent_keywords "sale_create") "x from" (mkRat 1 2) ≤
      boost_fold (mkRat 2 25) "x from" (get_intent_keywords "sale_create").weak
        (boost_fold (mkRat 1 5) "x from" (get_intent_keywords "sale_create").strong
          (mkRat 1 2)) :=
  C8_negative_penalty_monotone (get_intent_keywords "sale_create") "x from" (mkRat 1 2)
    (by decide) (by decide)

/-! ## Claim C9 -/

theorem extract_slots_go_cons_rule (env : Env) (hllm : env.use_llm = false)
    (text tkey n' : String) (d' : SlotDef) (rest : List (String × SlotDef)) :
    extract_slots_go env text tkey ((n', d') :: rest) =
      (match rule_based_value env text n' d' with
       | some x => (n', x) :: extract_slots_go env text tkey rest
       | none => extract_slots_go env text tkey rest) := by
  cases hv : rule_based_value env text n' d' with
  | none =>
    rw [extract_slots_go, hllm]
    simp [optTruthy, hv]
  | some x =>
    rw [extract_slots_go, hllm]
    simp [optTruthy, hv]

theorem extract_slots_go_lookup_none (env : Env) (text tkey : String)
    (schema : List (String × SlotDef)) (n : String)
    (h : n ∉ schema.map Prod.fst) :
    (extract_slots_go env text tkey schema).lookup n = none := by
  induction schema with
  | nil => rfl
  | cons nd rest ih =>
    obtain ⟨n', d'⟩ := nd
    have hne : (n == n') = false := by
      refine beq_eq_false_iff_ne.mpr ?_
      intro he
      exact h (by simp [he])
    have hrest : n ∉ rest.map Prod.fst := fun hr => h (by simp [hr])
    unfold extract_slots_go
    cases hv : (if optTruthy (if env.use_llm then env.llm_extract text n' tkey else none)
        then (if env.use_llm then env.llm_extract text n' tkey else none)
        else rule_based_value env text n' d') with
    | none => simpa [hv] using ih hrest
    | some x =>
      simp only [hv, List.lookup, hne]
      exact ih hrest

theorem assoc_val_unique {α : Type} (l : List (String × α))
    (hnd : (l.map Prod.fst).Nodup) {n : String} {a b : α}
    (ha : (n, a) ∈ l) (hb : (n, b) ∈ l) : a = b := by
  induction l with
  | nil => cases ha
  | cons x xs ih =>
    rw [List.map_cons, List.nodup_cons] at hnd
    rcases List.mem_cons.mp ha with h1 | h1
    · rcases List.mem_cons.mp hb with h2 | h2
      · exact ((Prod.mk.injEq _ _ _ _).mp (h1.trans h2.symm)).2
      · subst h1
        exact absurd (List.mem_map.mpr ⟨(n, b), h2, rfl⟩) hnd.1
    · rcases List.mem_cons.mp hb with h2 | h2
      · subst h2
        exact absurd (List.mem_map.mpr ⟨(n, a), h1, rfl⟩) hnd.1
      · exact ih hnd.2 h1 h2

theorem lookup_extract_slots_go (env : Env) (text tkey : String)
    (schema : List (String × SlotDef)) (n : String) (d : SlotDef)
    (hllm : env.use_llm = false)
    (hnd : (schema.map Prod.fst).Nodup)
    (hmem : (n, d) ∈ schema) :
    (extract_slots_go env text tkey schema).lookup n = rule_based_value env text n d := by
  induction schema with
  | nil => cases hmem
  | cons nd rest ih =>
    obtain ⟨n', d'⟩ := nd
    rw [List.map_cons, List.nodup_cons] at hnd
    rw [extract_slots_go_cons_rule env hllm text tkey n' d' rest]
    by_cases hn : n' = n
    · subst hn
      have hd : d' = d := by
        rcases List.mem_cons.mp hmem with h1 | h1
        · exact ((Prod.mk.injEq _ _ _ _).mp h1.symm).2
        · exact absurd (List.mem_map.mpr ⟨(n', d), h1, rfl⟩) hnd.1
      subst hd
      cases hv : rule_based_value env text n' d' with
      | none =>
        dsimp only
        exact extract_slots_go_lookup_none env text tkey rest n' hnd.1
      | some x =>
        dsimp only
        simp [List.lookup]
    · have hmem2 : (n, d) ∈ rest := by
        rcases List.mem_cons.mp hmem with h1 | h1
        · exact absurd ((Prod.mk.injEq _ _ _ _).mp h1.symm).1 hn
        · exact h1
      have hne : (n == n') = false := beq_eq_false_iff_ne.mpr (fun he => hn he.symm)
      cases hv : rule_based_value env text n' d' with
      | none =>
        dsimp only
        exact ih hnd.2 hmem2
      | some x =>
        dsimp only
        simp only [List.lookup, hne]
        exact ih hnd.2 hmem2

theorem mem_missing_required_iff (tpl : Template) (slots : List (String × SlotVal))
    (n : String) (d : SlotDef)
    (hnd : (tpl.schema.map Prod.fst).Nodup)
    (hmem : (n, d) ∈ tpl.schema) :
    (n ∈ missing_required tpl slots ↔ (d.required = true ∧ slots.lookup n = none)) := by
  unfold missing_required
  constructor
  · intro h
    obtain ⟨⟨n2, d2⟩, hmemf, heq⟩ := List.mem_map.mp h
    obtain ⟨hmem2, hpred⟩ := List.mem_filter.mp hmemf
    dsimp at heq hpred
    subst heq
    have hd : d2 = d := assoc_val_unique tpl.schema hnd hmem2 hmem
    subst hd
    simp only [Bool.and_eq_true, Option.isNone_iff_eq_none] at hpred
    exact hpred
  · intro ⟨hreq, hlook⟩
    refine List.mem_map.mpr ⟨(n, d), List.mem_filter.mpr ⟨hmem, ?_⟩, rfl⟩
    simp [hreq, hlook]

/-- C9 (amended): all extractors are total functions; with the rule-based
path (LLM disabled), a required slot whose declared type is not
`product_lines` is on the missing list exactly when its extractor returned
the absent marker `none` — but the product-lines extractor signals "nothing
found" with the empty list, not `none`, so a required `product_lines` slot
is always recorded (possibly as the empty list) and never counted missing. -/
theorem C9_missing_iff_none (env : Env) (text : String) (tpl : Template)
    (n : String) (d : SlotDef)
    (hllm : env.use_llm = false)
    (hnd : (tpl.schema.map Prod.fst).Nodup)
    (hmem : (n, d) ∈ tpl.schema)
    (hreq : d.required = true) :
    (d.type ≠ "product_lines" →
      (n ∈ missing_required tpl (extract_slots env text tpl) ↔
        rule_based_value env text n d = none)) ∧
    (d.type = "product_lines" →
      n ∉ missing_required tpl (extract_slots env text tpl) ∧
      (extract_slots env text tpl).lookup n
        = some (SlotVal.lines (extract_product_lines env text))) := by
  have hlook : (extract_slots env text tpl).lookup n = rule_based_value env text n d :=
    lookup_extract_slots_go env text tpl.key tpl.schema n d hllm hnd hmem
  have hiff := mem_missing_required_iff tpl (extract_slots env text tpl) n d hnd hmem
  constructor
  · intro _
    rw [hiff, hlook]
    simp [hreq]
  · intro hty
    have hval : rule_based_value env text n d
        = some (SlotVal.lines (extract_product_lines env text)) := by
      unfold rule_based_value
      rw [hty]
      rfl
    refine ⟨?_, by rw [hlook, hval]⟩
    rw [hiff, hlook, hval]
    simp

/-- Witness for C9: a required quantity slot on a digit-free text is missing
(extractor `none`); a required product-lines slot on the same text with an
empty catalogue is recorded as the empty list and never missing. -/
theorem C9_witness :
    ("quantity" ∈ missing_required tpl_inv (extract_slots env5 "hello" tpl_inv) ↔
      rule_based_value env5 "hello" "quantity" (mkSlot "quantity") = none) ∧
    "product_lines" ∉ missing_required tpl_pl (extract_slots env9 "hello" tpl_pl) ∧
    (extract_slots env9 "hello" tpl_pl).lookup "product_lines"
      = some (SlotVal.lines (extract_product_lines env9 "hello")) :=
  ⟨(C9_missing_iff_none env5 "hello" tpl_inv "quantity" (mkSlot "quantity") rfl
      (by decide) (List.mem_cons_of_mem _ (List.mem_cons_self _ _)) rfl).1 (by decide),
   ((C9_missing_iff_none env9 "hello" tpl_pl "product_lines" (mkSlot "product_lines") rfl
      (by decide) (List.mem_cons_self _ _) rfl).2 rfl).1,
   ((C9_missing_iff_none env9 "hello" tpl_pl "product_lines" (mkSlot "product_lines") rfl
      (by decide) (List.mem_cons_self _ _) rfl).2 rfl).2⟩

/-- C9 (counterexample): with an empty catalogue and the text "hello", the
product-lines extractor finds nothing yet returns `[]` (not the absent
marker), the slot is recorded as filled with `[]`, and the required slot is
not counted missing — the claim's absent-marker contract fails for this
extractor. -/
theorem C9_counterexample :
    extract_product_lines env9 "hello" = [] ∧
    (extract_slots env9 "hello" tpl_pl).lookup "product_lines" = some (SlotVal.lines []) ∧
    missing_required tpl_pl (extract_slots env9 "hello" tpl_pl) = [] ∧
    (mkSlot "product_lines").required = true := by
  refine ⟨by rfl, by rfl, by rfl, by rfl⟩

/-! ## Claim C6 -/

theorem match_intent_exact (seqSim : String → String → Rat) (text key : String)
    (phrases : List String) (p : String) (hp : p ∈ phrases) (he : text = lower p) :
    match_intent seqSim text key phrases = 1 := by
  unfold match_intent
  rw [if_neg (List.ne_nil_of_mem hp)]
  rw [if_pos]
  exact List.any_eq_true.mpr ⟨p, hp, by rw [he]; exact beq_self_eq_true _⟩

theorem insert_desc_head (m : IntentMatch) (l : List IntentMatch)
    (h : ∀ y ∈ l, y.confidence ≤ m.confidence) :
    ∃ r, insert_desc m l = m :: r := by
  cases l with
  | nil => exact ⟨[], rfl⟩
  | cons y ys =>
    refine ⟨y :: ys, ?_⟩
    unfold insert_desc
    rw [if_pos (h y (List.mem_cons_self y ys))]

theorem mem_insert_desc (m x : IntentMatch) (l : List IntentMatch)
    (h : x ∈ insert_desc m l) : x = m ∨ x ∈ l := by
  induction l with
  | nil => simpa [insert_desc] using h
  | cons y ys ih =>
    unfold insert_desc at h
    by_cases hc : m.confidence ≥ y.confidence
    · rw [if_pos hc] at h
      rcases List.mem_cons.mp h with h1 | h1
      · exact Or.inl h1
      · exact Or.inr h1
    · rw [if_neg hc] at h
      rcases List.mem_cons.mp h with h1 | h1
      · exact Or.inr (by rw [h1]; exact List.mem_cons_self y ys)
      · rcases ih h1 with h2 | h2
        · exact Or.inl h2
        · exact Or.inr (List.mem_cons_of_mem y h2)

theorem mem_sort_desc (x : IntentMatch) (l : List IntentMatch)
    (h : x ∈ sort_desc l) : x ∈ l := by
  induction l with
  | nil => simpa [sort_desc] using h
  | cons y ys ih =>
    unfold sort_desc at h
    rcases mem_insert_desc y x (sort_desc ys) h with h1 | h1
    · rw [h1]; exact List.mem_cons_self y ys
    · exact List.mem_cons_of_mem y (ih h1)

theorem sort_desc_first_max : ∀ (l : List IntentMatch) (m0 : IntentMatch),
    l.find? (fun m => m.confidence == 1) = some m0 →
    (∀ m ∈ l, m.confidence ≤ 1) →
    ∃ r, sort_desc l = m0 :: r := by
  intro l
  induction l with
  | nil => intro m0 hf _; simp [List.find?] at hf
  | cons x xs ih =>
    intro m0 hf hb
    rw [List.find?_cons] at hf
    by_cases hx : (x.confidence == 1) = true
    · simp only [hx] at hf
      obtain rfl := Option.some.inj hf
      have hx1 : x.confidence = 1 := by simpa using hx
      unfold sort_desc
      refine insert_desc_head x (sort_desc xs) ?_
      intro y hy
      rw [hx1]
      exact hb y (List.mem_cons_of_mem _ (mem_sort_desc y xs hy))
    · have hxf : (x.confidence == 1) = false := by simpa using hx
      simp only [hxf] at hf
      obtain ⟨r, hr⟩ := ih m0 hf (fun m hm => hb m (List.mem_cons_of_mem _ hm))
      have hm01 : m0.confidence = 1 := by
        have := List.find?_some hf
        simpa using this
      have hxlt : ¬ (x.confidence ≥ m0.confidence) := by
        rw [hm01]
        have hle := hb x (List.mem_cons_self x xs)
        have hne2 : x.confidence ≠ 1 := by simpa using hx
        intro hge
        exact hne2 (le_antisymm hle hge)
      unfold sort_desc
      rw [hr]
      unfold insert_desc
      rw [if_neg hxlt]
      exact ⟨insert_desc x r, rfl⟩

theorem scored_find (seqSim : String → String → Rat) (text : String) :
    ∀ (ts : List Template),
    (∃ t ∈ ts, match_intent seqSim text t.key t.phrases = 1) →
    ∃ t0, ts.find? (fun t => match_intent seqSim text t.key t.phrases == 1) = some t0 ∧
      match_intent seqSim text t0.key t0.phrases = 1 ∧
      (ts.filterMap (fun t =>
        if match_intent seqSim text t.key t.phrases > 0 then
          some (⟨t, t.key, match_intent seqSim text t.key t.phrases⟩ : IntentMatch)
        else none)).find? (fun m => m.confidence == 1)
        = some ⟨t0, t0.key, 1⟩ := by
  intro ts
  induction ts with
  | nil => rintro ⟨t, ht, _⟩; cases ht
  | cons t ts ih =>
    rintro ⟨t', ht', hs'⟩
    by_cases ht1 : match_intent seqSim text t.key t.phrases = 1
    · refine ⟨t, ?_, ht1, ?_⟩
      · rw [List.find?_cons]
        simp only [show (match_intent seqSim text t.key t.phrases == 1) = true from
          by simpa using ht1]
      · rw [List.filterMap_cons]
        simp only [ht1]
        rw [if_pos (by norm_num : (1:Rat) > 0)]
        dsimp only
        rw [List.find?_cons]
        simp only [show ((1:Rat) == 1) = true from by simp]
    · have hmem2 : ∃ u ∈ ts, match_intent seqSim text u.key u.phrases = 1 := by
        rcases List.mem_cons.mp ht' with h1 | h1
        · exact absurd (h1 ▸ hs') ht1
        · exact ⟨t', h1, hs'⟩
      obtain ⟨t0, hfind, hs0, hfind2⟩ := ih hmem2
      refine ⟨t0, ?_, hs0, ?_⟩
      · rw [List.find?_cons]
        simp only [show (match_intent seqSim text t.key t.phrases == 1) = false from
          by simpa using ht1]
        exact hfind
      · rw [List.filterMap_cons]
        by_cases hpos : match_intent seqSim text t.key t.phrases > 0
        · rw [if_pos hpos]
          dsimp only
          rw [List.find?_cons]
          simp only [show (match_intent seqSim text t.key t.phrases == 1) = false from
            by simpa using ht1]
          exact hfind2
        · rw [if_neg hpos]
          exact hfind2

/-- C6 (counterexample): the normalized text "sell stuff" exactly equals a
training phrase of the active template `tplA` (`a_intent`), yet resolution
selects `b_intent` — the template that comes first in search order and shares
the phrase — so "selects that intent" fails as a universal statement (the
returned confidence is 1.0). -/
theorem C6_counterexample :
    lower (trim "sell stuff") = lower "sell stuff" ∧
    "sell stuff" ∈ tplA.phrases ∧
    tplA.active = true ∧
    tplA ∈ env6.templates ∧
    (∃ r, router_parse env6 "sell stuff" = Except.ok r ∧
      r.intent_key = "b_intent" ∧ r.confidence = 1) ∧
    "b_intent" ≠ tplA.key := by
  refine ⟨by rfl, by decide, by rfl,
    List.mem_cons_of_mem _ (List.mem_cons_self _ _),
    ⟨_, by rfl, by rfl, by rfl⟩, by decide⟩

/-- C6 (amended): with the LLM disambiguation disabled (the default) and the
similarity oracle bounded by `[0,1]`, if the normalized text exactly equals a
training phrase of some active template, resolution succeeds with confidence
1.0 and selects the FIRST active template (in search order) whose score is
1.0 — in particular the unique exactly-matching intent when no other
template reaches 1.0. -/
theorem C6_exact_match_selects_first (env : Env) (raw : String) (t : Template) (p : String)
    (hb : ∀ a b, 0 ≤ env.seqSim a b ∧ env.seqSim a b ≤ 1)
    (hllm : env.use_llm = false)
    (ht : t ∈ env.templates) (hact : t.active = true)
    (hp : p ∈ t.phrases)
    (hraw : trim raw ≠ "")
    (hexact : lower (trim raw) = lower p) :
    ∃ t0 r, (env.templates.filter (fun u => u.active)).find?
        (fun u => match_intent env.seqSim (lower (trim raw)) u.key u.phrases == 1) = some t0
      ∧ router_parse env raw = Except.ok r
      ∧ r.intent_key = t0.key ∧ r.confidence = 1 := by
  have hscore1 : match_intent env.seqSim (lower (trim raw)) t.key t.phrases = 1 :=
    match_intent_exact env.seqSim (lower (trim raw)) t.key t.phrases p hp hexact
  have hmemA : t ∈ env.templates.filter (fun u => u.active) :=
    List.mem_filter.mpr ⟨ht, by rw [hact]⟩
  obtain ⟨t0, hfind, hs0, hfind2⟩ :=
    scored_find env.seqSim (lower (trim raw)) (env.templates.filter (fun u => u.active))
      ⟨t, hmemA, hscore1⟩
  have hble : ∀ m ∈ (env.templates.filter (fun u => u.active)).filterMap (fun u =>
      if match_intent env.seqSim (lower (trim raw)) u.key u.phrases > 0 then
        some (⟨u, u.key, match_intent env.seqSim (lower (trim raw)) u.key u.phrases⟩ : IntentMatch)
      else none), m.confidence ≤ 1 := by
    intro m hm
    obtain ⟨u, _, hf⟩ := List.mem_filterMap.mp hm
    by_cases hpos : match_intent env.seqSim (lower (trim raw)) u.key u.phrases > 0
    · rw [if_pos hpos] at hf
      obtain rfl := Option.some.inj hf
      exact match_intent_le_one env.seqSim (lower (trim raw)) u.key u.phrases hb
    · rw [if_neg hpos] at hf
      cases hf
  obtain ⟨r0, hsort⟩ := sort_desc_first_max _ _ hfind2 hble
  have hne : (env.templates.filter (fun u => u.active)).isEmpty = false := by
    cases hfe : (env.templates.filter (fun u => u.active)) with
    | nil => rw [hfe] at hmemA; cases hmemA
    | cons a l => rfl
  have hdone : ∃ pr, router_parse env raw = Except.ok pr ∧
      pr.intent_key = t0.key ∧ pr.confidence = 1 := by
    unfold router_parse
    rw [if_neg hraw]
    simp only [hne, Bool.false_eq_true, if_false]
    rw [hsort]
    cases r0 with
    | nil =>
      dsimp only
      rw [if_neg (by decide : ¬ ((1:Rat) < mkRat 3 10))]
      exact ⟨_, rfl, rfl, rfl⟩
    | cons m2 r2 =>
      have hdis : disambiguate_with_llm env (lower (trim raw))
          [⟨t0, t0.key, 1⟩, m2] = none := by
        unfold disambiguate_with_llm
        rw [hllm]
        rfl
      dsimp only
      rw [hdis]
      rw [ite_self]
      rw [if_neg (by decide : ¬ ((1:Rat) < mkRat 3 10))]
      exact ⟨_, rfl, rfl, rfl⟩
  obtain ⟨pr, hpr, hik, hconf⟩ := hdone
  exact ⟨t0, pr, hfind, hpr, hik, hconf⟩

/-- Witness for C6: unique exact match selects that intent. -/
theorem C6_witness :
    ∃ t0 r, (envW.templates.filter (fun u => u.active)).find?
        (fun u => match_intent envW.seqSim (lower (trim "Hello World ")) u.key u.phrases == 1)
        = some t0
      ∧ router_parse envW "Hello World " = Except.ok r
      ∧ r.intent_key = t0.key ∧ r.confidence = 1 :=
  C6_exact_match_selects_first envW "Hello World " tplW "hello world"
    (fun _ _ => ⟨le_rfl, by show (0:Rat) ≤ 1; norm_num⟩) rfl
    (List.mem_cons_self _ _) rfl (List.mem_cons_self _ _) (by decide) (by rfl)

end OdooVoice
